import Mathlib

/-!
Verification of the pattern-analysis engine of the MuMuAINovel backend
(`backend/app/services/pattern_analyzer.py`).

The Python source is shallowly embedded below.  Conventions used throughout:

* Python strings are Lean `String`s; character-level scans work on `String.data`
  (`List Char`), which matches Python's code-point view of `str` (`len`, slicing,
  `in`, `str.count`).
* Python `int` arithmetic is `Nat`/`Int`; Python `float` ratios are modelled
  exactly over `ℚ` (`int(x)` on a non-negative value is `Nat` floor division,
  `round(x, 2)` is `round2` below).
* Python dicts that are used as insertion-ordered association maps
  (`collections.Counter`, `defaultdict`) are association lists in first-insertion
  order; grouping with a `defaultdict` is modelled as "distinct keys in first
  occurrence order, each key mapped to the filter of its group".
* `list.sort` is a stable sort; it is modelled by insertion sort (`sortByLe`).
* The SQLAlchemy stores are explicit: the `ChapterPatternCache` table is a
  `List ChapterPatternCache` threaded through the incremental functions, lookup
  `.first()` is "first entry with the matching chapter id", and SQL `NULL` for
  the JSON columns is modelled by the empty list (which makes the source's
  `cache.emotion_stats or {}` the identity).
* `hashlib.md5` (an external library) is a parameter `hashFn : String → String`
  of the incremental engine; claims that need collision-freedom of the
  fingerprint take it as a hypothesis.
* The jieba tokenizer is an external resource: the jieba-backed template
  strategy is embedded as a function of the token list `pseg.cut` would return,
  and the engine's sentence→template map (chosen once, depending on resource
  availability) is a parameter `extractT : String → String`.  The
  `functools.lru_cache` wrapper is semantically transparent for a pure function
  and is dropped.
-/

/-! ## Generic list utilities -/

/-- Boolean test that `needle` starts `hay` (Python `str.startswith` on the
character lists). -/
def leadsWith : List Char → List Char → Bool
  | [], _ => true
  | _ :: _, [] => false
  | a :: as, b :: bs => a == b && leadsWith as bs

/-- Boolean test that `needle` occurs contiguously somewhere in `hay`
(Python `needle in hay`). -/
def hasSeq (needle : List Char) : List Char → Bool
  | [] => leadsWith needle []
  | c :: rest => leadsWith needle (c :: rest) || hasSeq needle rest

/-- Substring containment on strings (Python `needle in hay`). -/
def strContains (hay needle : String) : Bool :=
  hasSeq needle.data hay.data

/-- Scanner for Python `str.count`: counts non-overlapping occurrences left to
right; `skip` is the number of characters still covered by the last match. -/
def countSubGo (needle : List Char) : List Char → Nat → Nat
  | [], _ => 0
  | _ :: rest, skip + 1 => countSubGo needle rest skip
  | c :: rest, 0 =>
    if leadsWith needle (c :: rest) then 1 + countSubGo needle rest (needle.length - 1)
    else countSubGo needle rest 0

/-- Python `hay.count(needle)` on character lists. -/
def countSub (needle hay : List Char) : Nat :=
  if needle = [] then hay.length + 1 else countSubGo needle hay 0

/-- Python `hay.count(needle)` on strings. -/
def strCount (hay needle : String) : Nat :=
  countSub needle.data hay.data

/-- Distinct elements in first-occurrence order (the key order of a Python
`dict`/`defaultdict` built by insertion). -/
def dedupKeysAux [DecidableEq α] (seen : List α) : List α → List α
  | [] => []
  | x :: xs => if x ∈ seen then dedupKeysAux seen xs else x :: dedupKeysAux (x :: seen) xs

def dedupKeys [DecidableEq α] (l : List α) : List α :=
  dedupKeysAux [] l

/-- Insertion step of the stable insertion sort modelling Python `list.sort`. -/
def insBy (le : α → α → Bool) (x : α) : List α → List α
  | [] => [x]
  | y :: ys => if le y x then y :: insBy le x ys else x :: y :: ys

/-- Stable insertion sort with a boolean "may come before" relation. -/
def sortByLe (le : α → α → Bool) : List α → List α
  | [] => []
  | x :: xs => insBy le x (sortByLe le xs)

/-! ## String helpers shared by the embedding -/

/-- Python slicing `s[:n]` on a string. -/
def pyTake (s : String) (n : Nat) : String := String.mk (s.data.take n)

/-- Python `s.startswith(pre)` (equivalent to `String.startsWith`, defined on
the character lists so that it evaluates inside the kernel). -/
def pyStartsWith (s pre : String) : Bool := leadsWith pre.data s.data

/-- Python's default `str.strip()` character class (ASCII whitespace plus the
common unicode spaces that occur in the analysed texts). -/
def isSpaceLike (c : Char) : Bool :=
  c.isWhitespace || c == Char.ofNat 0x3000 || c == Char.ofNat 0x0b || c == Char.ofNat 0x0c

/-- Python `str.strip()`. -/
def pyStrip (s : String) : String :=
  String.mk (((s.data.dropWhile isSpaceLike).reverse.dropWhile isSpaceLike).reverse)

/-- Python `round(x, 2)`; float round-half-even is modelled as exact half-up
rounding over `ℚ` (the two agree at every value the claims touch). -/
def round2 (q : ℚ) : ℚ := ((round (q * 100) : ℤ) : ℚ) / 100

/-- Python `int(x * 100)` for the non-negative ratios interpolated into
suggestion strings. -/
def pct100 (q : ℚ) : ℤ := Int.floor (q * 100)

/-- Insertion-ordered counter (`collections.Counter` restricted to the way the
source uses it: insertion order of first occurrence is the dict order). -/
abbrev PyCounter := List (String × Nat)

/-- Add `n` to key `k` of a counter, appending the key on first occurrence. -/
def counterAdd (c : PyCounter) (k : String) (n : Nat) : PyCounter :=
  if c.any (fun p => p.1 == k) then
    c.map (fun p => if p.1 == k then (p.1, p.2 + n) else p)
  else c ++ [(k, n)]

/-- Counter of a list of strings in encounter order. -/
def counterOf (l : List String) : PyCounter :=
  l.foldl (fun c s => counterAdd c s 1) []

/-- Sum of a counter's values. -/
def counterTotal (c : PyCounter) : Nat := (c.map (·.2)).sum

/-- `Counter.most_common(k)`: stable sort by count descending, take `k`. -/
def most_common (c : PyCounter) (k : Nat) : PyCounter :=
  (sortByLe (fun a b => decide (b.2 ≤ a.2)) c).take k

/-- Lookup in a `List (String × String)` association map. -/
def lookupStr (m : List (String × String)) (k : String) : Option String :=
  (m.find? (fun p => p.1 == k)).map (·.2)

/-! ## Vocabulary constants (`pattern_analyzer.py` module level) -/

/-- One emotion category of `EMOTION_VOCABULARY`. -/
structure EmotionConfig where
  keywords : List String
  expressions : List String
deriving DecidableEq, Repr

def EMOTION_VOCABULARY : List (String × EmotionConfig) :=
  [ ("happy",
      { keywords := ["笑", "开心", "高兴", "欢喜", "愉快", "欣喜", "快乐", "乐"],
        expressions := ["笑了笑", "笑了起来", "嘴角上扬", "嘴角微扬", "露出笑容",
                        "开心地", "高兴地", "欣喜", "喜悦", "乐呵呵"] }),
    ("sad",
      { keywords := ["哭", "泪", "悲", "伤心", "难过", "痛苦", "忧伤"],
        expressions := ["叹了口气", "叹气", "眼眶泛红", "眼眶湿润", "流下眼泪",
                        "泪流满面", "悲伤地", "伤心地", "难过地", "黯然"] }),
    ("angry",
      { keywords := ["怒", "气", "愤", "恼", "火"],
        expressions := ["怒道", "怒吼", "冷哼", "大怒", "勃然大怒",
                        "气愤地", "愤怒地", "怒气冲冲", "火冒三丈"] }),
    ("fear",
      { keywords := ["怕", "惧", "恐", "惊", "慌"],
        expressions := ["害怕", "恐惧", "惊恐", "惊慌", "慌张",
                        "心惊胆战", "胆战心惊", "瑟瑟发抖"] }),
    ("surprise",
      { keywords := ["惊", "讶", "愕"],
        expressions := ["惊讶", "吃惊", "震惊", "愕然", "目瞪口呆",
                        "大吃一惊", "惊呆了", "不敢相信"] }) ]

def VERB_SEMANTIC_GROUPS : List (String × List String) :=
  [ ("[视觉]", ["看", "望", "盯", "瞧", "瞅", "观察", "注视", "凝视", "打量", "审视", "眺望", "俯视", "仰望", "环顾", "扫视"]),
    ("[言语]", ["说", "道", "讲", "问", "答", "回答", "回应", "喊", "叫", "吼", "嚷", "嘟囔", "低语", "呢喃", "轻声"]),
    ("[移动]", ["走", "跑", "冲", "奔", "飞", "跳", "爬", "滚", "溜", "窜", "闯", "踱", "漫步", "疾步", "快步"]),
    ("[手动]", ["拿", "抓", "握", "捏", "拎", "提", "举", "放", "扔", "丢", "递", "接", "推", "拉", "拽", "按", "摸", "碰", "触"]),
    ("[情感]", ["笑", "哭", "怒", "惊", "喜", "悲", "恨", "爱", "怕", "慌", "愁", "叹", "愣", "呆"]),
    ("[思维]", ["想", "思", "考虑", "琢磨", "思索", "寻思", "盘算", "回忆", "记得", "忘记", "明白", "理解", "懂", "知道"]),
    ("[姿态]", ["站", "坐", "躺", "蹲", "趴", "倚", "靠", "卧", "跪", "立"]),
    ("[头动]", ["点头", "摇头", "抬头", "低头", "转头", "回头", "侧头", "仰头", "埋头"]),
    ("[表情]", ["皱眉", "蹙眉", "挑眉", "扬眉", "眯眼", "瞪眼", "闭眼", "睁眼", "咬唇", "抿唇", "撇嘴", "嘟嘴"]) ]

/-- Insert with replacement, the update behaviour of a Python dict. -/
def dictPut (m : List (String × String)) (k v : String) : List (String × String) :=
  if m.any (fun p => p.1 == k) then m.map (fun p => if p.1 == k then (k, v) else p)
  else m ++ [(k, v)]

/-- Reverse map verb → semantic tag (built by dict insertion, so a verb listed
in several groups would keep the last group, exactly as the Python dict). -/
def VERB_TO_SEMANTIC : List (String × String) :=
  VERB_SEMANTIC_GROUPS.foldl (fun m p => p.2.foldl (fun m v => dictPut m v p.1) m) []

def OPENING_KEYWORDS_time : List String :=
  ["清晨", "早上", "上午", "中午", "下午", "傍晚", "黄昏", "夜晚", "深夜",
   "凌晨", "天亮", "天黑", "日出", "日落", "午后", "夜深", "拂晓", "黎明",
   "第二天", "第三天", "几天后", "一周后", "一个月后", "次日"]

def OPENING_KEYWORDS_weather : List String :=
  ["阳光", "月光", "星光", "细雨", "大雨", "暴雨", "风", "雪", "云", "雾",
   "晴朗", "阴沉", "乌云", "雷电", "闪电"]

def OPENING_KEYWORDS_action : List String :=
  ["走进", "推开", "打开", "关上", "站在", "坐在", "躺在", "跑向", "冲向"]

def OPENING_KEYWORDS_dialogue : List String :=
  ["「", "\u0022", "\u0027", "\u201c", "『"]

/-! ## Segmenter (`split_sentences`) -/

/-- The sentence-final characters of the splitting pattern `[。！？!?]+”?`. -/
def isSentEnd (c : Char) : Bool :=
  c == '。' || c == '！' || c == '？' || c == '!' || c == '?'

/-- Raw segments of `re.split(r'[。！？!?]+”?', text)`: each maximal run of
sentence enders, optionally followed by one `”`, is one delimiter.  The state
is `some acc` (current segment, reversed) or `none` (inside a delimiter run,
where further enders extend the run and one `”` may close it). -/
def splitScan : List Char → Option (List Char) → List (List Char)
  | [], some acc => [acc.reverse]
  | [], none => [[]]
  | c :: rest, some acc =>
    if isSentEnd c then acc.reverse :: splitScan rest none
    else splitScan rest (some (c :: acc))
  | c :: rest, none =>
    if isSentEnd c then splitScan rest none
    else if c == Char.ofNat 0x201D then splitScan rest (some [])
    else splitScan rest (some [c])

/-- `split_sentences`: split on sentence punctuation, strip, keep fragments
longer than 3 characters. -/
def split_sentences (text : String) : List String :=
  (splitScan text.data (some [])).filterMap (fun seg =>
    let s := String.mk seg
    if s ≠ "" ∧ (pyStrip s).length > 3 then some (pyStrip s) else none)

/-! ## Template Abstractor -/

/-- Chinese (CJK unified ideographs) range test `'一' <= c <= '鿿'`. -/
def isCJK (c : Char) : Bool := 0x4e00 ≤ c.toNat && c.toNat ≤ 0x9fff

/-- `common_verbs` of `_extract_template_simple_impl`. -/
def common_verbs : List String :=
  ["是", "有", "在", "说", "道", "看", "想", "知道", "觉得", "认为",
   "走", "来", "去", "跑", "站", "坐", "躺", "笑", "哭", "喊", "叫",
   "做", "给", "让", "把", "被", "对", "向", "从", "到", "过",
   "打开", "关上", "拿起", "放下", "抬头", "低头", "转身", "回头",
   "开始", "结束", "继续", "停止", "出现", "消失", "发现", "听到"]

/-- `keep_words` of `_extract_template_simple_impl`. -/
def keep_words : List String :=
  ["的", "地", "得", "了", "着", "过", "吗", "呢", "吧", "啊",
   "和", "与", "或", "但", "但是", "然而", "因为", "所以", "如果",
   "就", "都", "也", "还", "又", "再", "才", "只", "很", "太",
   "不", "没", "没有", "不是", "不会", "不能"]

/-- `pronouns` of `_extract_template_simple_impl`. -/
def pronouns : List String :=
  ["我", "你", "他", "她", "它", "我们", "你们", "他们", "她们", "它们",
   "这", "那", "这个", "那个", "这些", "那些", "自己", "大家", "谁"]

/-- The punctuation characters preserved verbatim by the simple strategy. -/
def cn_punct : List Char := "，。！？、；：“”‘’（）【】《》…—".data

/-- Decision for one single character of the simple strategy: the item to
append, or `none` when the character merges into a preceding noun placeholder
(`last` is `result[-1]`). -/
def simple_single_item (c : Char) (last : Option String) : Option String :=
  let s := String.mk [c]
  if s ∈ common_verbs || s ∈ keep_words then some s
  else if s ∈ pronouns then some "[代词]"
  else if cn_punct.contains c then some s
  else if isCJK c then (if last == some "[名词]" then none else some "[名词]")
  else some s

/-- The item list built by `_extract_template_simple_impl` (the Python
`result` list); `last` tracks `result[-1]`. -/
def simple_template_items : List Char → Option String → List String
  | [], _ => []
  | [c], last =>
    match simple_single_item c last with
    | some it => [it]
    | none => []
  | c :: c2 :: rest2, last =>
    let two := String.mk [c, c2]
    if two ∈ common_verbs || two ∈ keep_words then
      two :: simple_template_items rest2 (some two)
    else if two ∈ pronouns then
      "[代词]" :: simple_template_items rest2 (some "[代词]")
    else
      match simple_single_item c last with
      | some it => it :: simple_template_items (c2 :: rest2) (some it)
      | none => simple_template_items (c2 :: rest2) last

/-- `_extract_template_simple_impl`: the character-class fallback strategy. -/
def extract_template_simple_impl (sentence : String) : String :=
  String.join (simple_template_items sentence.data none)

/-- The per-token item of `_extract_template_with_jieba_impl`'s main loop,
as a function of the `(word, flag)` pair produced by `jieba.posseg`. -/
def jieba_token_item (w flag : String) : String :=
  if pyStartsWith flag "n" then "[名词]"
  else if flag == "r" then "[代词]"
  else if pyStartsWith flag "v" then
    match lookupStr VERB_TO_SEMANTIC w with
    | some semantic => semantic
    | none => w
  else if flag == "d" then "[副词]"
  else if pyStartsWith flag "a" then "[形容词]"
  else if flag == "m" then "[数词]"
  else if flag == "p" then w
  else if flag ∈ ["c", "u", "e", "y", "o", "w"] then w
  else w

/-- The merge loop of `_extract_template_with_jieba_impl`: drop an item equal
to the previous one when it is a placeholder (starts with `[`). -/
def merge_dup_placeholders : List String → Option String → List String
  | [], _ => []
  | it :: rest, prev =>
    if pyStartsWith it "[" && some it == prev then merge_dup_placeholders rest prev
    else it :: merge_dup_placeholders rest (some it)

/-- `_extract_template_with_jieba_impl` as a function of the token list the
external `jieba.posseg.cut` tokenizer returns for the sentence. -/
def extract_template_with_jieba_tokens (tokens : List (String × String)) : String :=
  String.join (merge_dup_placeholders (tokens.map (fun p => jieba_token_item p.1 p.2)) none)

/-- Token-level statement of "two adjacent identical placeholder tokens". -/
def has_adjacent_equal_placeholder : List String → Bool
  | [] => false
  | [_] => false
  | a :: b :: rest => (a == b && pyStartsWith a "[") || has_adjacent_equal_placeholder (b :: rest)

/-! ## Template similarity and the Clusterer -/

/-- Inner loop of the row-based edit distance of `template_similarity`:
`dleft` is `curr_row[j]` (the last cost written). -/
def levRowNext (c1 : Char) : List Char → List Nat → Nat → List Nat
  | [], _, _ => []
  | _ :: _, [], _ => []
  | c2 :: cs, pj :: rest, dleft =>
    let pj1 := rest.headD 0
    let cost := min (min (pj1 + 1) (dleft + 1)) (pj + (if c1 == c2 then 0 else 1))
    cost :: levRowNext c1 cs rest cost

/-- Row-fold edit distance of `template_similarity`. -/
def levDistance (t1 t2 : List Char) : Nat :=
  let final := t1.foldl
    (fun prev c1 => (prev.headD 0 + 1) :: levRowNext c1 t2 prev (prev.headD 0 + 1))
    (List.range (t2.length + 1))
  final.getLastD 0

/-- `template_similarity`: normalized edit-distance similarity in `[0,1]`.
The float comparison `abs(len1-len2) > max*0.5` is modelled exactly
(`0.5` is dyadic, so the two agree). -/
def template_similarity (t1 t2 : String) : ℚ :=
  if t1 == t2 then 1
  else
    let len1 := t1.length
    let len2 := t2.length
    if len1 = 0 ∨ len2 = 0 then 0
    else if ((len1 : ℤ) - len2).natAbs * 2 > max len1 len2 then 0
    else
      let a := if len1 > len2 then t2.data else t1.data
      let b := if len1 > len2 then t1.data else t2.data
      1 - (levDistance a b : ℚ) / ((max a.length b.length : Nat) : ℚ)

/-- One item fed to the Clusterer: a sentence with its template and source
chapter metadata (the dict rows built by the analysis pipelines). -/
structure TItem where
  text : String
  template : String
  chapter_id : String
  chapter_number : Nat
  chapter_title : String
  position : Nat
  is_opening : Bool
  is_ending : Bool
deriving DecidableEq, Repr, Inhabited

/-- An exact-template cluster: representative template plus members. -/
structure TCluster where
  representative : String
  items : List TItem
deriving DecidableEq, Repr, Inhabited

/-- Union-find `find` without path compression (compression only speeds up
the Python `find`, it does not change roots); `fuel` bounds the parent walk. -/
def findRoot (par : List Nat) : Nat → Nat → Nat
  | 0, x => x
  | fuel + 1, x =>
    let p := par.getD x x
    if p = x then x else findRoot par fuel p

/-- Union step `merged_into[rx] = ry` of `_merge_similar_clusters`. -/
def unionRoots (par : List Nat) (n x y : Nat) : List Nat :=
  let rx := findRoot par n x
  let ry := findRoot par n y
  if rx = ry then par else par.set rx ry

/-- The pairwise union-find loop of `_merge_similar_clusters` (`j` ranges over
`i+1..n-1`, modelled by the `i < j` guard).  The float length gate
`abs(len_i-len_j) > max*0.4` is modelled exactly over the integers. -/
def finalParent (clusters : List TCluster) (threshold : ℚ) : List Nat :=
  let n := clusters.length
  (List.range n).foldl (fun par i =>
    (List.range n).foldl (fun par j =>
      if i < j then
        let rep_i := (clusters.getD i default).representative
        let rep_j := (clusters.getD j default).representative
        if ((rep_i.length : ℤ) - rep_j.length).natAbs * 5 > (max rep_i.length rep_j.length) * 2 then par
        else if template_similarity rep_i rep_j ≥ threshold then unionRoots par n i j
        else par
      else par) par) (List.range n)

/-- `_merge_similar_clusters`: group whole clusters by union-find root.  The
`defaultdict` accumulation is modelled as grouping by root in first-occurrence
order; the representative check `if not merged_clusters[root]["representative"]`
keeps the first cluster's representative (representatives here are never
empty, their templates have length > 5). -/
def merge_similar_clusters (clusters : List TCluster) (threshold : ℚ) : List TCluster :=
  if clusters.length ≤ 1 then clusters
  else
    let n := clusters.length
    let par := finalParent clusters threshold
    let root := fun i => findRoot par n i
    let roots := dedupKeys ((List.range n).map root)
    roots.map (fun r =>
      let idxs := (List.range n).filter (fun i => root i = r)
      { representative := (idxs.map (fun i => (clusters.getD i default).representative)).headD "",
        items := idxs.flatMap (fun i => (clusters.getD i default).items) })

/-- `cluster_templates_similar`: phase-1 exact bucketing (groups of byte-equal
templates of length > 5, kept when they have ≥ 2 members), then, when at most
50 buckets, the fuzzy merge of `_merge_similar_clusters`, a `≥ 2` filter, and
a stable sort by member count descending. -/
def cluster_templates_similar (templates : List TItem) (threshold : ℚ) : List (List TItem) :=
  if templates = [] then []
  else
    let valid_templates := templates.filter (fun t => t.template.length > 5)
    if valid_templates = [] then []
    else
      let keys := dedupKeys (valid_templates.map (·.template))
      let cluster_list := keys.filterMap (fun k =>
        let items := valid_templates.filter (fun t => t.template == k)
        if items.length ≥ 2 then some (⟨k, items⟩ : TCluster) else none)
      if cluster_list.length ≤ 50 then
        let merged := merge_similar_clusters cluster_list threshold
        sortByLe (fun a b => decide (b.length ≤ a.length))
          ((merged.filter (fun c => c.items.length ≥ 2)).map (·.items))
      else
        sortByLe (fun a b => decide (b.length ≤ a.length)) (cluster_list.map (·.items))

/-- `cluster_templates`: the default-threshold entry point. -/
def cluster_templates (templates : List TItem) : List (List TItem) :=
  cluster_templates_similar templates (7 / 10)

/-! ## Narrative Tagger and N-gram Miner -/

/-- `extract_sentence_type`: classify a template into one of the five
narrative-function tags. -/
def extract_sentence_type (template : String) : Char :=
  let has_dialogue := ["「", "\u0022", "\u0027", "："].any (fun m => strContains template m)
  let has_action := ["[视觉]", "[移动]", "[手动]", "[姿态]", "[头动]"].any (fun tg => strContains template tg)
  let has_emotion := strContains template "[情感]" || ["[表情]"].any (fun tg => strContains template tg)
  let has_speech := strContains template "[言语]"
  let has_thought := strContains template "[思维]"
  if has_dialogue || has_speech then 'D'
  else if has_thought then 'T'
  else if has_emotion then 'E'
  else if has_action then 'A'
  else 'N'

/-- One n-gram row produced by `extract_ngrams`; `members` is the slice
`chapter_templates[i:i+n]` whose texts form the row's `sentences` list. -/
structure NGramRec where
  pattern : String
  types : List Char
  chapter_id : String
  chapter_number : Nat
  start_position : Nat
  members : List TItem
deriving DecidableEq, Repr

def NGramRec.sentences (g : NGramRec) : List String := g.members.map (·.text)

/-- The n-gram rows of one chapter's position-sorted template group
(the per-chapter body of `extract_ngrams`'s loop). -/
def chapter_ngrams (n : Nat) (cid : String) (group : List TItem) : List NGramRec :=
  if group.length < n then []
  else
    let types := group.map (fun t => extract_sentence_type t.template)
    (List.range (group.length - n + 1)).map (fun i =>
      { pattern := String.intercalate "→" (((types.drop i).take n).map (fun c => String.mk [c])),
        types := (types.drop i).take n,
        chapter_id := cid,
        chapter_number := (group.headD default).chapter_number,
        start_position := i,
        members := (group.drop i).take n })

/-- `extract_ngrams`: group by chapter id (first-occurrence order), sort each
chapter by position, emit every contiguous window of `n` narrative tags. -/
def extract_ngrams (templates : List TItem) (n : Nat) : List NGramRec :=
  if templates.length < n then []
  else
    (dedupKeys (templates.map (·.chapter_id))).flatMap (fun cid =>
      chapter_ngrams n cid (sortByLe (fun a b => decide (a.position ≤ b.position))
        (templates.filter (fun t => t.chapter_id == cid))))

/-- One reported repetitive n-gram pattern (`examples` pairs a chapter number
with the example's sentences). -/
structure NGPattern where
  pattern : String
  count : Nat
  description : String
  examples : List (Nat × List String)
deriving DecidableEq, Repr

/-- `_describe_ngram_pattern`. -/
def describe_ngram_pattern (pattern : String) : String :=
  let type_names := [("D", "对话"), ("T", "思维"), ("E", "情感"), ("A", "动作"), ("N", "叙述")]
  let parts := pattern.splitOn "→"
  String.intercalate " → " (parts.map (fun p => (lookupStr type_names p).getD p))

/-- The `most_common(10)`/`count >= 3` reporting loop of
`analyze_ngram_patterns`, shared by bigrams and trigrams. -/
def repetitive_patterns (ngrams : List NGramRec) (counter : PyCounter) : List NGPattern :=
  (most_common counter 10).filterMap (fun pc =>
    if pc.2 ≥ 3 then
      some { pattern := pc.1, count := pc.2,
             description := describe_ngram_pattern pc.1,
             examples := ((ngrams.filter (fun g => g.pattern == pc.1)).take 3).map
               (fun g => (g.chapter_number, g.sentences)) }
    else none)

structure NgramAnalysis where
  bigram_patterns : List NGPattern
  trigram_patterns : List NGPattern
  total_bigrams : Nat
  unique_bigrams : Nat
  diversity_score : Nat
deriving DecidableEq, Repr

/-- `analyze_ngram_patterns`.  The score `min(100, int(unique/total * 200))`
is modelled as exact floor division. -/
def analyze_ngram_patterns (templates : List TItem) : NgramAnalysis :=
  let bigrams := extract_ngrams templates 2
  let trigrams := extract_ngrams templates 3
  let bigram_counter := counterOf (bigrams.map (·.pattern))
  let trigram_counter := counterOf (trigrams.map (·.pattern))
  let total_bigrams := bigrams.length
  let unique_bigrams := bigram_counter.length
  { bigram_patterns := repetitive_patterns bigrams bigram_counter,
    trigram_patterns := repetitive_patterns trigrams trigram_counter,
    total_bigrams := total_bigrams,
    unique_bigrams := unique_bigrams,
    diversity_score :=
      if total_bigrams > 0 then min 100 (200 * unique_bigrams / total_bigrams) else 100 }

/-! ## Opening Analyzer -/

/-- `analyze_opening_type`: fixed priority order over the keyword classes. -/
def analyze_opening_type (sentence : String) : String :=
  if OPENING_KEYWORDS_dialogue.any (fun m => pyStartsWith (pyStrip sentence) m) then "dialogue"
  else if OPENING_KEYWORDS_time.any (fun k => strContains (pyTake sentence 20) k) then "time"
  else if OPENING_KEYWORDS_weather.any (fun k => strContains (pyTake sentence 30) k) then "weather"
  else if OPENING_KEYWORDS_action.any (fun k => strContains (pyTake sentence 15) k) then "action"
  else "other"

/-- One sentence row of `all_sentences` (the full path also carries the
chapter title; the incremental path builds the same row without it, and no
consumer reads it). -/
structure SentenceRec where
  text : String
  chapter_id : String
  chapter_number : Nat
  chapter_title : String
  position : Nat
  is_opening : Bool
  is_ending : Bool
deriving DecidableEq, Repr, Inhabited

structure OpeningAnalysis where
  total_chapters : Nat
  categories : List (String × Nat)
  examples : List (String × List (Nat × String))
  dominant_type : String
  dominant_count : Nat
  dominant_ratio : ℚ
  is_monotonous : Bool
  suggestion : String
deriving DecidableEq, Repr

/-- Truncation `text[:50] + "..."` used for opening examples. -/
def truncate50 (t : String) : String :=
  if t.length > 50 then pyTake t 50 ++ "..." else t

def opening_type_names : List (String × String) :=
  [("time", "时间"), ("weather", "天气/环境"), ("dialogue", "对话"),
   ("action", "动作"), ("other", "其他")]

/-- `analyze_openings`.  Note that, exactly as in the source, the
`total_chapters` argument is unused: every ratio and the reported total use
`len(openings)`. -/
def analyze_openings (all_sentences : List SentenceRec) (total_chapters : Nat) : OpeningAnalysis :=
  let openings := all_sentences.filter (fun s => s.position == 0)
  let typed := openings.map (fun o => (analyze_opening_type o.text, o))
  let categories := counterOf (typed.map (·.1))
  let typeKeys := dedupKeys (typed.map (·.1))
  let examples := typeKeys.map (fun k =>
    (k, ((typed.filter (fun p => p.1 == k)).take 3).map
      (fun p => (p.2.chapter_number, truncate50 p.2.text))))
  let dominant := (most_common categories 1).headD ("unknown", 0)
  let dominant_type := if categories = [] then "unknown" else dominant.1
  let dominant_count := if categories = [] then 0 else dominant.2
  let ratio : ℚ := if openings.length ≠ 0 ∧ categories ≠ [] then
    (dominant_count : ℚ) / (openings.length : ℚ) else 0
  let suggestion :=
    if ratio > 3 / 5 then
      let p := pct100 ratio
      let nm := (lookupStr opening_type_names dominant_type).getD dominant_type
      s!"{p}%的章节以{nm}开场，建议尝试更多样的开场方式"
    else ""
  { total_chapters := openings.length,
    categories := categories,
    examples := examples,
    dominant_type := dominant_type,
    dominant_count := dominant_count,
    dominant_ratio := round2 ratio,
    is_monotonous := decide (ratio > 3 / 5),
    suggestion := suggestion }

/-! ## Emotion Vocabulary Analyzer -/

/-- Per-category record of the emotion diversity report. -/
structure EmotionData where
  expressions : List (String × Nat)
  total_count : Nat
  unique_count : Nat
  concentration : ℚ
  top_expression : Option String
  top_count : Nat
deriving DecidableEq, Repr

structure EmotionDiversity where
  emotions : List (String × EmotionData)
  diversity_score : Nat
  total_expressions : Nat
  total_unique : Nat
  most_concentrated_emotion : Option String
  suggestion : String
deriving DecidableEq, Repr

/-- `count_emotion_expressions`: substring counts of every catalog expression
over the joined corpus (each of the five categories keeps a counter, possibly
empty). -/
def count_emotion_expressions (chapters_content : List String) : List (String × PyCounter) :=
  let full_text := String.intercalate "\n" chapters_content
  EMOTION_VOCABULARY.map (fun ec =>
    (ec.1, ec.2.expressions.filterMap (fun expr =>
      let count := strCount full_text expr
      if count > 0 then some (expr, count) else none)))

/-- The per-category loop shared verbatim by `analyze_emotion_diversity` and
`aggregate_emotion_stats`: keep non-empty counters, compute totals,
concentration (rounded to two decimals) and the top expression. -/
def build_emotion_result (emotion_counts : List (String × PyCounter)) : List (String × EmotionData) :=
  emotion_counts.filterMap (fun ec =>
    if ec.2 = [] then none
    else
      let expressions := most_common ec.2 10
      let total := counterTotal ec.2
      let unique := ec.2.length
      let top_expr : Option String × Nat := match expressions with
        | [] => (none, 0)
        | e :: _ => (some e.1, e.2)
      let concentration : ℚ := if total > 0 then (top_expr.2 : ℚ) / (total : ℚ) else 0
      some (ec.1,
        { expressions := expressions,
          total_count := total,
          unique_count := unique,
          concentration := round2 concentration,
          top_expression := top_expr.1,
          top_count := top_expr.2 }))

def emotion_names : List (String × String) :=
  [("happy", "开心"), ("sad", "悲伤"), ("angry", "愤怒"),
   ("fear", "恐惧"), ("surprise", "惊讶")]

/-- The `most_concentrated` scan: strict improvement on (rounded)
concentration, restricted to categories with total ≥ 5. -/
def find_most_concentrated (emos : List (String × EmotionData)) : Option String × ℚ :=
  emos.foldl (fun acc p =>
    if p.2.concentration > acc.2 ∧ p.2.total_count ≥ 5 then (some p.1, p.2.concentration)
    else acc) (none, 0)

/-- The over-concentration suggestion shared by both emotion entry points. -/
def emotion_suggestion (emos : List (String × EmotionData))
    (most_concentrated : Option String) (max_concentration : ℚ) : String :=
  match most_concentrated with
  | none => ""
  | some emo =>
    if max_concentration > 7 / 10 then
      let nm := (lookupStr emotion_names emo).getD emo
      let p := pct100 max_concentration
      let top_expr := (((emos.find? (fun e => e.1 == emo)).map (·.2.top_expression)).join).getD "None"
      s!"表达「{nm}」时，{p}%使用「{top_expr}」，建议扩展情感表达词汇"
    else ""

/-- `analyze_emotion_diversity` (whole-corpus entry point).  The score is
`50` with no occurrences, `60` below 10 occurrences, otherwise
`min(100, int(unique/total * 200) + min(30, unique * 3))` with the ratio
floor modelled exactly. -/
def analyze_emotion_diversity (chapters_content : List String) : EmotionDiversity :=
  let emotion_counts := count_emotion_expressions chapters_content
  let result := build_emotion_result emotion_counts
  let total_expressions := (result.map (·.2.total_count)).sum
  let total_unique := (result.map (·.2.unique_count)).sum
  let diversity_score :=
    if total_expressions = 0 then 50
    else if total_expressions < 10 then 60
    else
      let base_score := 200 * total_unique / total_expressions
      let quantity_bonus := min 30 (total_unique * 3)
      min 100 (base_score + quantity_bonus)
  let mc := find_most_concentrated result
  { emotions := result,
    diversity_score := diversity_score,
    total_expressions := total_expressions,
    total_unique := total_unique,
    most_concentrated_emotion := mc.1,
    suggestion := emotion_suggestion result mc.1 mc.2 }

/-! ## Score Aggregator and suggestions -/

structure PatternRec where
  template : String
  count : Nat
  examples : List String
  chapters : List Nat
  is_opening_pattern : Bool
  is_ending_pattern : Bool
deriving DecidableEq, Repr

/-- The repeated-pattern reporting loop of both analysis paths: clusters of
size ≥ 3 become pattern records, sorted by count descending. -/
def patterns_from_clusters (clusters : List (List TItem)) : List PatternRec :=
  sortByLe (fun a b => decide (b.count ≤ a.count))
    (clusters.filterMap (fun cluster =>
      if cluster.length ≥ 3 then
        some { template := (cluster.headD default).template,
               count := cluster.length,
               examples := (cluster.take 5).map (·.text),
               chapters := sortByLe (fun a b => decide (a ≤ b)) (dedupKeys (cluster.map (·.chapter_number))),
               is_opening_pattern := cluster.all (·.is_opening),
               is_ending_pattern := cluster.all (·.is_ending) }
      else none))

/-- `calculate_pattern_score` (both callers always pass an n-gram analysis,
so the `if ngram_analysis:` guard is always taken). -/
def calculate_pattern_score (patterns : List PatternRec) (opening_analysis : OpeningAnalysis)
    (emotion_diversity : EmotionDiversity) (chapter_count : Nat)
    (ngram_analysis : NgramAnalysis) : Int :=
  let pattern_penalty : Int := (patterns.take 10).foldl (fun pen p =>
    let repeat_q : ℚ := (p.count : ℚ) / ((max chapter_count 1 : Nat) : ℚ)
    if repeat_q > 1 / 2 then pen + 5
    else if repeat_q > 3 / 10 then pen + 3
    else if repeat_q > 1 / 5 then pen + 2
    else pen + 1) 0
  let score : Int := 100 - min 30 pattern_penalty
  let score : Int :=
    if opening_analysis.is_monotonous then
      if opening_analysis.dominant_ratio > 4 / 5 then score - 20
      else if opening_analysis.dominant_ratio > 3 / 5 then score - 12
      else score - 6
    else score
  let emotion_score := emotion_diversity.diversity_score
  let score : Int :=
    if emotion_score < 40 then score - 20
    else if emotion_score < 60 then score - 12
    else if emotion_score < 80 then score - 6
    else score
  let ngram_diversity := ngram_analysis.diversity_score
  let bigram_count := ngram_analysis.bigram_patterns.length
  let trigram_count := ngram_analysis.trigram_patterns.length
  let score : Int :=
    if ngram_diversity < 30 then score - 15
    else if ngram_diversity < 50 then score - 10
    else if ngram_diversity < 70 then score - 5
    else score
  let score : Int :=
    if bigram_count > 5 then score - 8
    else if bigram_count > 3 then score - 5
    else if bigram_count > 1 then score - 2
    else score
  let score : Int :=
    if trigram_count > 3 then score - 7
    else if trigram_count > 1 then score - 3
    else score
  max 0 (min 100 score)

/-- `get_pattern_level`. -/
def get_pattern_level (score : Int) : String :=
  if score ≥ 80 then "多样丰富"
  else if score ≥ 60 then "较为多样"
  else if score ≥ 40 then "套路化明显"
  else "高度套路化"

/-- `generate_pattern_suggestions`. -/
def generate_pattern_suggestions (patterns : List PatternRec)
    (opening_analysis : OpeningAnalysis) (emotion_diversity : EmotionDiversity)
    (ngram_analysis : NgramAnalysis) : List String :=
  let s1 := (patterns.take 5).filterMap (fun p =>
    if p.count ≥ 5 then
      let tdisp := if p.template.length > 30 then pyTake p.template 30 ++ "..." else p.template
      let cnt := p.count
      some s!"「{tdisp}」出现{cnt}次，建议使用更多样的表达方式"
    else none)
  let s2 := if opening_analysis.suggestion ≠ "" then [opening_analysis.suggestion] else []
  let s3 := if emotion_diversity.suggestion ≠ "" then [emotion_diversity.suggestion] else []
  let s4 := (ngram_analysis.bigram_patterns.take 3).filterMap (fun bp =>
    if bp.count ≥ 5 then
      let d := bp.description
      let c := bp.count
      some s!"叙事模式「{d}」出现{c}次，尝试打破固定的句式节奏"
    else none)
  let s5 := (ngram_analysis.trigram_patterns.take 2).filterMap (fun tp =>
    if tp.count ≥ 4 then
      let d := tp.description
      some s!"三句式模式「{d}」频繁出现，建议增加叙事结构变化"
    else none)
  let s6 := if ngram_analysis.diversity_score < 40 then
    ["叙事节奏较为单一，建议穿插不同类型的句子组合"] else []
  s1 ++ s2 ++ s3 ++ s4 ++ s5 ++ s6

/-! ## Incremental Cache Manager and the two analysis entry points -/

/-- A chapter row as the engine reads it (SQL `NULL` content is `""`). -/
structure Chapter where
  id : String
  project_id : String
  chapter_number : Nat
  title : String
  content : String
deriving DecidableEq, Repr, Inhabited

/-- One cached sentence row of a `ChapterPatternCache.templates` JSON list. -/
structure ChapterTemplate where
  text : String
  template : String
  position : Nat
  is_opening : Bool
  is_ending : Bool
deriving DecidableEq, Repr, Inhabited

/-- One category entry of the cached per-chapter emotion statistics
(`{"total": …, "expressions": [{"expr": …, "count": …}, …]}`). -/
structure EmotionStat where
  total : Nat
  expressions : List (String × Nat)
deriving DecidableEq, Repr

/-- The per-chapter analysis dict returned by `analyze_single_chapter` and by
the cached branch of the incremental loop. -/
structure ChapterAnalysis where
  chapter_id : String
  chapter_number : Nat
  chapter_title : String
  templates : List ChapterTemplate
  sentence_count : Nat
  opening_type : Option String
  emotion_stats : List (String × EmotionStat)
deriving DecidableEq, Repr, Inhabited

/-- A `ChapterPatternCache` table row. -/
structure ChapterPatternCache where
  project_id : String
  chapter_id : String
  chapter_number : Nat
  content_hash : String
  templates : List ChapterTemplate
  sentence_count : Nat
  opening_type : Option String
  emotion_stats : List (String × EmotionStat)
  analysis_version : String
deriving DecidableEq, Repr, Inhabited

def ANALYSIS_VERSION : String := "2.0"

/-- `extract_templates_batch`: the source precomputes the template of every
distinct sentence then maps back; for the pure strategy function this is a
plain map. -/
def extract_templates_batch (extractT : String → String) (sentences : List String) : List String :=
  sentences.map extractT

/-- `analyze_single_chapter`.  With empty content the source returns the
short dict (no title key, modelled as `""`); otherwise it segments, extracts
templates with positional opening/ending flags, classifies the opening
sentence, and counts the catalog emotion expressions over the raw content. -/
def analyze_single_chapter (extractT : String → String) (chapter_id : String)
    (chapter_number : Nat) (content : String) (title : String) : ChapterAnalysis :=
  if content = "" then
    { chapter_id := chapter_id, chapter_number := chapter_number, chapter_title := "",
      templates := [], sentence_count := 0, opening_type := none, emotion_stats := [] }
  else
    let sentences := split_sentences content
    let template_strs := extract_templates_batch extractT sentences
    let templates := ((sentences.zip template_strs).enum).map (fun ist =>
      { text := ist.2.1, template := ist.2.2, position := ist.1,
        is_opening := decide (ist.1 < 3),
        is_ending := if sentences.length > 3 then decide (ist.1 ≥ sentences.length - 3) else false })
    let opening_type := match sentences with
      | [] => none
      | s :: _ => some (analyze_opening_type s)
    let emotion_stats := EMOTION_VOCABULARY.filterMap (fun ec =>
      let found : List (String × Nat) := ec.2.expressions.filterMap (fun expr =>
        let c := strCount content expr
        if c > 0 then some (expr, c) else none)
      let count : Nat := (found.map (·.2)).sum
      if count > 0 then some (ec.1, ({ total := count, expressions := found } : EmotionStat))
      else none)
    { chapter_id := chapter_id, chapter_number := chapter_number, chapter_title := title,
      templates := templates, sentence_count := sentences.length,
      opening_type := opening_type, emotion_stats := emotion_stats }

/-- `select(...).where(chapter_id == …)` + `.first()` over the cache table. -/
def cacheFind (store : List ChapterPatternCache) (cid : String) : Option ChapterPatternCache :=
  store.find? (fun e => e.chapter_id == cid)

/-- Update the first row with the given chapter id in place. -/
def updateFirstCache : List ChapterPatternCache → String →
    (ChapterPatternCache → ChapterPatternCache) → List ChapterPatternCache
  | [], _, _ => []
  | e :: rest, cid, f =>
    if e.chapter_id == cid then f e :: rest else e :: updateFirstCache rest cid f

/-- The per-chapter analysis dict rebuilt from a trusted cache row (the
`or {}` fallback on `emotion_stats` is the identity, NULL being `[]`). -/
def analysis_from_cache (c : Chapter) (e : ChapterPatternCache) : ChapterAnalysis :=
  { chapter_id := c.id, chapter_number := c.chapter_number, chapter_title := c.title,
    templates := e.templates, sentence_count := e.sentence_count,
    opening_type := e.opening_type, emotion_stats := e.emotion_stats }

/-- The refreshed row written by `get_or_create_chapter_cache` over an
existing row. -/
def refreshCacheRow (hashFn extractT : String → String) (chapter : Chapter)
    (e : ChapterPatternCache) : ChapterPatternCache :=
  let analysis := analyze_single_chapter extractT chapter.id chapter.chapter_number
    chapter.content chapter.title
  { e with content_hash := hashFn chapter.content,
           chapter_number := chapter.chapter_number,
           templates := analysis.templates,
           sentence_count := analysis.sentence_count,
           opening_type := analysis.opening_type,
           emotion_stats := analysis.emotion_stats,
           analysis_version := ANALYSIS_VERSION }

/-- The fresh row added by `get_or_create_chapter_cache` when none exists. -/
def newCacheRow (hashFn extractT : String → String) (chapter : Chapter) : ChapterPatternCache :=
  let analysis := analyze_single_chapter extractT chapter.id chapter.chapter_number
    chapter.content chapter.title
  { project_id := chapter.project_id, chapter_id := chapter.id,
    chapter_number := chapter.chapter_number, content_hash := hashFn chapter.content,
    templates := analysis.templates, sentence_count := analysis.sentence_count,
    opening_type := analysis.opening_type, emotion_stats := analysis.emotion_stats,
    analysis_version := ANALYSIS_VERSION }

/-- `get_or_create_chapter_cache`: reuse a row whose hash and version match
(unless forced), otherwise recompute and write the row in place (or add it). -/
def get_or_create_chapter_cache (hashFn extractT : String → String)
    (store : List ChapterPatternCache) (chapter : Chapter) (force_refresh : Bool) :
    ChapterAnalysis × List ChapterPatternCache :=
  let content_hash := hashFn chapter.content
  let recompute : ChapterAnalysis × List ChapterPatternCache :=
    (analyze_single_chapter extractT chapter.id chapter.chapter_number chapter.content chapter.title,
     match cacheFind store chapter.id with
     | some _ => updateFirstCache store chapter.id (refreshCacheRow hashFn extractT chapter)
     | none => store ++ [newCacheRow hashFn extractT chapter])
  match cacheFind store chapter.id with
  | some e =>
    if ¬force_refresh ∧ e.content_hash = content_hash ∧ e.analysis_version = ANALYSIS_VERSION then
      (analysis_from_cache chapter e, store)
    else recompute
  | none => recompute

/-- The running state of the incremental per-chapter loop. -/
structure LoopState where
  chapter_analyses : List ChapterAnalysis
  store : List ChapterPatternCache
  cached_count : Nat
  refreshed_count : Nat
deriving DecidableEq, Repr

/-- One iteration of the chapter loop of `analyze_project_patterns_incremental`:
skip empty chapters, reuse a valid cache row, otherwise refresh through
`get_or_create_chapter_cache(force_refresh=True)`. -/
def incremental_step (hashFn extractT : String → String) (force_refresh : Bool)
    (st : LoopState) (chapter : Chapter) : LoopState :=
  if chapter.content = "" then st
  else
    let content_hash := hashFn chapter.content
    let refresh :=
      let ar := get_or_create_chapter_cache hashFn extractT st.store chapter true
      { st with chapter_analyses := st.chapter_analyses ++ [ar.1],
                store := ar.2,
                refreshed_count := st.refreshed_count + 1 }
    match cacheFind st.store chapter.id with
    | some e =>
      if ¬force_refresh ∧ e.content_hash = content_hash ∧ e.analysis_version = ANALYSIS_VERSION then
        { st with chapter_analyses := st.chapter_analyses ++ [analysis_from_cache chapter e],
                  cached_count := st.cached_count + 1 }
      else refresh
    | none => refresh

structure IncrementalStats where
  cached_chapters : Nat
  refreshed_chapters : Nat
deriving DecidableEq, Repr

/-- The analysis payload common to both entry points (the success dict minus
the incremental bookkeeping). -/
structure AnalysisResult where
  status : String
  score : Int
  level : String
  chapters_analyzed : Nat
  patterns_found : Nat
  top_patterns : List PatternRec
  opening_analysis : OpeningAnalysis
  emotion_diversity : EmotionDiversity
  ngram_analysis : NgramAnalysis
  suggestions : List String
deriving DecidableEq, Repr

/-- The dict returned by `analyze_project_patterns_incremental` (success
carries the extra `incremental_stats` entry). -/
inductive AnalysisOutcome where
  | insufficient_data (message : String) (current_chapters : Nat)
  | no_content (message : String)
  | success (core : AnalysisResult) (incremental_stats : IncrementalStats)
deriving DecidableEq, Repr

def AnalysisOutcome.stats? : AnalysisOutcome → Option IncrementalStats
  | .success _ s => some s
  | _ => none

def AnalysisOutcome.core? : AnalysisOutcome → Option AnalysisResult
  | .success c _ => some c
  | _ => none

/-- Replace the incremental bookkeeping of a success outcome. -/
def AnalysisOutcome.withStats (o : AnalysisOutcome) (s : IncrementalStats) : AnalysisOutcome :=
  match o with
  | .success c _ => .success c s
  | o => o

/-- Chapters the incremental loop actually processes (non-empty content). -/
def processed_count (chapters : List Chapter) : Nat :=
  (chapters.filter (fun c => c.content ≠ "")).length

/-- `aggregate_emotion_stats`: merge the cached per-chapter counters (a stats
key outside the five-category catalog would raise `KeyError` in the source;
cached stats only ever hold catalog keys, and other keys are ignored here),
then run the same scoring block as `analyze_emotion_diversity`. -/
def aggregate_emotion_stats (chapter_analyses : List ChapterAnalysis) : EmotionDiversity :=
  let init : List (String × PyCounter) := EMOTION_VOCABULARY.map (fun ec => (ec.1, []))
  let emotion_counts := chapter_analyses.foldl (fun m ca =>
    ca.emotion_stats.foldl (fun m es =>
      es.2.expressions.foldl (fun m ed =>
        m.map (fun p => if p.1 == es.1 then (p.1, counterAdd p.2 ed.1 ed.2) else p)) m) m) init
  let result := build_emotion_result emotion_counts
  let total_expressions := (result.map (·.2.total_count)).sum
  let total_unique := (result.map (·.2.unique_count)).sum
  let diversity_score :=
    if total_expressions = 0 then 50
    else if total_expressions < 10 then 60
    else
      let base_score := 200 * total_unique / total_expressions
      let quantity_bonus := min 30 (total_unique * 3)
      min 100 (base_score + quantity_bonus)
  let mc := find_most_concentrated result
  { emotions := result,
    diversity_score := diversity_score,
    total_expressions := total_expressions,
    total_unique := total_unique,
    most_concentrated_emotion := mc.1,
    suggestion := emotion_suggestion result mc.1 mc.2 }

/-- The `TItem` rows the incremental aggregation builds from the per-chapter
analyses (cached templates plus the chapter metadata). -/
def incremental_all_templates (chapter_analyses : List ChapterAnalysis) : List TItem :=
  chapter_analyses.flatMap (fun ca =>
    ca.templates.map (fun t =>
      { text := t.text, template := t.template, chapter_id := ca.chapter_id,
        chapter_number := ca.chapter_number, chapter_title := ca.chapter_title,
        position := t.position, is_opening := t.is_opening, is_ending := t.is_ending }))

/-- The sentence rows the incremental aggregation feeds to the opening
analyzer (the source row has no title field; none is read downstream). -/
def incremental_all_sentences (chapter_analyses : List ChapterAnalysis) : List SentenceRec :=
  chapter_analyses.flatMap (fun ca =>
    ca.templates.map (fun t =>
      { text := t.text, chapter_id := ca.chapter_id, chapter_number := ca.chapter_number,
        chapter_title := "", position := t.position,
        is_opening := t.is_opening, is_ending := t.is_ending }))

/-- The shared aggregation steps 4–11 of `analyze_project_patterns_incremental`
over the collected per-chapter analyses. -/
def incremental_aggregate (chapters_len : Nat) (chapter_analyses : List ChapterAnalysis) :
    AnalysisResult :=
  let all_templates := incremental_all_templates chapter_analyses
  let all_sentences := incremental_all_sentences chapter_analyses
  let clusters := cluster_templates all_templates
  let patterns := patterns_from_clusters clusters
  let opening_analysis := analyze_openings all_sentences chapters_len
  let emotion_diversity := aggregate_emotion_stats chapter_analyses
  let ngram_analysis := analyze_ngram_patterns all_templates
  let score := calculate_pattern_score patterns opening_analysis emotion_diversity
    chapters_len ngram_analysis
  { status := "success",
    score := score,
    level := get_pattern_level score,
    chapters_analyzed := chapters_len,
    patterns_found := patterns.length,
    top_patterns := patterns.take 10,
    opening_analysis := opening_analysis,
    emotion_diversity := emotion_diversity,
    ngram_analysis := ngram_analysis,
    suggestions := generate_pattern_suggestions patterns opening_analysis
      emotion_diversity ngram_analysis }

/-- The whole per-chapter loop of `analyze_project_patterns_incremental`. -/
def chapter_loop (hashFn extractT : String → String) (force_refresh : Bool)
    (chapters : List Chapter) (st : LoopState) : LoopState :=
  chapters.foldl (incremental_step hashFn extractT force_refresh) st

/-- `analyze_project_patterns_incremental`: the incremental engine, returning
the result dict together with the final cache table (the aggregate
`ProjectPatternAnalysis` row that `save_pattern_analysis` upserts is exactly
the returned success payload and is not modelled separately). -/
def analyze_project_patterns_incremental (hashFn extractT : String → String)
    (chapters : List Chapter) (store : List ChapterPatternCache)
    (min_chapters : Nat) (force_refresh : Bool) :
    AnalysisOutcome × List ChapterPatternCache :=
  if chapters.length < min_chapters then
    (.insufficient_data s!"需要至少{min_chapters}个章节才能进行套路化分析" chapters.length, store)
  else
    let final := chapter_loop hashFn extractT force_refresh chapters
      { chapter_analyses := [], store := store, cached_count := 0, refreshed_count := 0 }
    if final.chapter_analyses = [] then (.no_content "章节内容为空", final.store)
    else
      (.success (incremental_aggregate chapters.length final.chapter_analyses)
        { cached_chapters := final.cached_count, refreshed_chapters := final.refreshed_count },
       final.store)

/-- The dict returned by the full (non-incremental) `analyze_project_patterns`
(no incremental bookkeeping). -/
inductive FullOutcome where
  | insufficient_data (message : String) (current_chapters : Nat)
  | no_content (message : String)
  | success (core : AnalysisResult)
deriving DecidableEq, Repr

/-- The `all_sentences` rows built per chapter by the full path (position,
first-3 opening flag, last-3 ending flag that is forced `False` when the
chapter has at most 3 sentences). -/
def sentence_records_of_chapter (c : Chapter) : List SentenceRec :=
  let sentences := split_sentences c.content
  sentences.enum.map (fun isent =>
    { text := isent.2, chapter_id := c.id, chapter_number := c.chapter_number,
      chapter_title := c.title, position := isent.1,
      is_opening := decide (isent.1 < 3),
      is_ending := if sentences.length > 3 then decide (isent.1 ≥ sentences.length - 3) else false })

/-- The template row of the full path: the sentence row plus its template
(`extract_templates_batch` over all texts equals a pointwise map). -/
def titem_of_record (extractT : String → String) (r : SentenceRec) : TItem :=
  { text := r.text, template := extractT r.text, chapter_id := r.chapter_id,
    chapter_number := r.chapter_number, chapter_title := r.chapter_title,
    position := r.position, is_opening := r.is_opening, is_ending := r.is_ending }

/-- `analyze_project_patterns`: the full-corpus entry point. -/
def analyze_project_patterns (extractT : String → String) (chapters : List Chapter)
    (min_chapters : Nat) : FullOutcome :=
  if chapters.length < min_chapters then
    .insufficient_data s!"需要至少{min_chapters}个章节才能进行套路化分析" chapters.length
  else
    let chapters_content := (chapters.filter (fun c => c.content ≠ "")).map (·.content)
    let all_sentences := chapters.flatMap (fun c =>
      if c.content = "" then [] else sentence_records_of_chapter c)
    if all_sentences = [] then .no_content "章节内容为空"
    else
      let templates := all_sentences.map (titem_of_record extractT)
      let clusters := cluster_templates templates
      let patterns := patterns_from_clusters clusters
      let opening_analysis := analyze_openings all_sentences chapters.length
      let emotion_diversity := analyze_emotion_diversity chapters_content
      let ngram_analysis := analyze_ngram_patterns templates
      let score := calculate_pattern_score patterns opening_analysis emotion_diversity
        chapters.length ngram_analysis
      .success
        { status := "success",
          score := score,
          level := get_pattern_level score,
          chapters_analyzed := chapters.length,
          patterns_found := patterns.length,
          top_patterns := patterns.take 10,
          opening_analysis := opening_analysis,
          emotion_diversity := emotion_diversity,
          ngram_analysis := ngram_analysis,
          suggestions := generate_pattern_suggestions patterns opening_analysis
            emotion_diversity ngram_analysis }

/-! ## Observation helpers used by the theorems -/

/-- The trust test of the incremental cache (§3 invariant): a row for this
chapter exists whose stored hash equals the current content's hash and whose
stored version equals the engine version. -/
def cache_valid (hashFn : String → String) (store : List ChapterPatternCache)
    (c : Chapter) : Bool :=
  match cacheFind store c.id with
  | some e => e.content_hash == hashFn c.content && e.analysis_version == ANALYSIS_VERSION
  | none => false

/-- The "angry" counter of the whole-corpus emotion count. -/
def angry_counter (chapters_content : List String) : PyCounter :=
  (((count_emotion_expressions chapters_content).find? (fun p => p.1 == "angry")).map (·.2)).getD []

/-- Category lookup in cached per-chapter emotion statistics. -/
def emotion_stats_lookup (stats : List (String × EmotionStat)) (k : String) : Option EmotionStat :=
  (stats.find? (fun p => p.1 == k)).map (·.2)

/-- Two adjacent noun placeholders in a template item list. -/
def has_adjacent_noun : List String → Bool
  | a :: b :: rest => (a == "[名词]" && b == "[名词]") || has_adjacent_noun (b :: rest)
  | _ => false

/-! ## Concrete inputs used by counterexamples and witnesses -/

/-- Corpus with 5 distinct happy expressions totalling 10 occurrences. -/
def exampleCorpusA : List String :=
  ["欣喜。欣喜。欣喜。欣喜。欣喜。欣喜。喜悦。开心地。高兴地。乐呵呵。"]

/-- Corpus with 3 distinct happy expressions totalling 16 occurrences
(ratio 3/16, so `unique/total * 200 = 37.5`). -/
def exampleCorpusB : List String :=
  ["欣喜欣喜欣喜欣喜欣喜欣喜欣喜欣喜欣喜欣喜欣喜欣喜欣喜欣喜喜悦乐呵呵"]

def exampleTItem (tpl : String) (pos : Nat) : TItem :=
  { text := s!"句子{pos}", template := tpl, chapter_id := "ch1", chapter_number := 1,
    chapter_title := "", position := pos, is_opening := decide (pos < 3), is_ending := false }

/-- A single 17-sentence chapter whose tag sequence is A N D N D … N D:
16 bigrams, 3 distinct patterns (A→N, N→D, D→N). -/
def exampleNgramTemplates : List TItem :=
  [exampleTItem "x[移动]x" 0] ++
    (List.range 8).flatMap (fun i => [exampleTItem "xxxx" (2 * i + 1), exampleTItem "x：x" (2 * i + 2)])

def exampleChapter (n : Nat) (content : String) : Chapter :=
  { id := s!"c{n}", project_id := "p", chapter_number := n, title := s!"第{n}章",
    content := content }

/-- Five chapters with non-empty content. -/
def exampleChapters : List Chapter :=
  [exampleChapter 1 "他走进了房间。他坐了下来。",
   exampleChapter 2 "她看着窗外。天色渐渐暗了。",
   exampleChapter 3 "他走进了房间。他笑了笑。",
   exampleChapter 4 "雨下得很大。他们在屋里等着。",
   exampleChapter 5 "夜晚来临了。他走进了房间。"]

/-- The same project after chapter 3's text was edited to empty. -/
def exampleChaptersEmpty3 : List Chapter :=
  [exampleChapter 1 "他走进了房间。他坐了下来。",
   exampleChapter 2 "她看着窗外。天色渐渐暗了。",
   exampleChapter 3 "",
   exampleChapter 4 "雨下得很大。他们在屋里等着。",
   exampleChapter 5 "夜晚来临了。他走进了房间。"]

/-- The same project after chapter 3's text was edited to a new sentence. -/
def exampleChaptersChanged3 : List Chapter :=
  [exampleChapter 1 "他走进了房间。他坐了下来。",
   exampleChapter 2 "她看着窗外。天色渐渐暗了。",
   exampleChapter 3 "他推开门走了进去。他愣住了。",
   exampleChapter 4 "雨下得很大。他们在屋里等着。",
   exampleChapter 5 "夜晚来临了。他走进了房间。"]

/-- Only four chapters of the edited project (below the minimum of 5). -/
def exampleChapters4 : List Chapter := exampleChaptersChanged3.take 4

/-- A minimal valid cache row (the frame claims only inspect hash/version). -/
def exampleCacheRow (n : Nat) (content : String) : ChapterPatternCache :=
  { project_id := "p", chapter_id := s!"c{n}", chapter_number := n,
    content_hash := content, templates := [], sentence_count := 0,
    opening_type := none, emotion_stats := [], analysis_version := "2.0" }

/-- A cache state from a run over `exampleChapters` under `hashFn = id`:
every row stores the hash of the original chapter text, so after editing
chapter 3 only its row is stale. -/
def exampleStore : List ChapterPatternCache :=
  [exampleCacheRow 1 "他走进了房间。他坐了下来。",
   exampleCacheRow 2 "她看着窗外。天色渐渐暗了。",
   exampleCacheRow 3 "他走进了房间。他笑了笑。",
   exampleCacheRow 4 "雨下得很大。他们在屋里等着。",
   exampleCacheRow 5 "夜晚来临了。他走进了房间。"]

/-- Corpus and chapter content with a single angry occurrence `勃然大怒`. -/
def exampleAngryText : String := "他勃然大怒。"

/-- A two-sentence chapter content (both sentences within the first 3). -/
def exampleShortContent : String := "今天天气很好。我们继续出发。"

/-! Lemmas about the generic utilities. -/

theorem leadsWith_iff_append (n h : List Char) :
    leadsWith n h = true ↔ ∃ t, h = n ++ t := by
  induction n generalizing h with
  | nil => simp [leadsWith]
  | cons a as ih =>
    cases h with
    | nil => simp [leadsWith]
    | cons b bs =>
      simp only [leadsWith, Bool.and_eq_true, beq_iff_eq, ih]
      constructor
      · rintro ⟨rfl, t, rfl⟩; exact ⟨t, rfl⟩
      · rintro ⟨t, ht⟩
        cases ht
        exact ⟨rfl, t, rfl⟩

theorem hasSeq_iff_parts (n h : List Char) :
    hasSeq n h = true ↔ ∃ p t, h = p ++ n ++ t := by
  induction h with
  | nil =>
    simp only [hasSeq, leadsWith_iff_append]
    constructor
    · rintro ⟨t, ht⟩; exact ⟨[], t, by simp [ht]⟩
    · rintro ⟨p, t, ht⟩
      rcases List.append_eq_nil.mp ht.symm with ⟨hpn, ht'⟩
      rcases List.append_eq_nil.mp hpn with ⟨hp, hn⟩
      exact ⟨[], by simp [hn]⟩
  | cons c rest ih =>
    simp only [hasSeq, Bool.or_eq_true, leadsWith_iff_append, ih]
    constructor
    · rintro (⟨t, ht⟩ | ⟨p, t, ht⟩)
      · exact ⟨[], t, by simp [ht]⟩
      · exact ⟨c :: p, t, by simp [ht]⟩
    · rintro ⟨p, t, ht⟩
      cases p with
      | nil => exact Or.inl ⟨t, by simpa using ht⟩
      | cons q qs =>
        right
        refine ⟨qs, t, ?_⟩
        simpa using (List.cons_eq_cons.mp (by simpa using ht)).2

/-- A contiguous occurrence inside the needle lifts to the haystack. -/
theorem hasSeq_trans {m n hs : List Char} (hmn : hasSeq m n = true)
    (hnh : hasSeq n hs = true) : hasSeq m hs = true := by
  rcases (hasSeq_iff_parts m n).mp hmn with ⟨p, t, hn⟩
  rcases (hasSeq_iff_parts n hs).mp hnh with ⟨p', t', hh⟩
  refine (hasSeq_iff_parts m hs).mpr ⟨p' ++ p, t ++ t', ?_⟩
  rw [hh, hn]
  simp [List.append_assoc]

theorem countSubGo_pos_of_hasSeq (n : List Char) (hn : n ≠ []) (h : List Char)
    (hh : hasSeq n h = true) : 0 < countSubGo n h 0 := by
  induction h with
  | nil =>
    cases n with
    | nil => exact absurd rfl hn
    | cons a as => simp [hasSeq, leadsWith] at hh
  | cons c rest ih =>
    simp only [hasSeq, Bool.or_eq_true] at hh
    by_cases hl : leadsWith n (c :: rest) = true
    · simp [countSubGo, hl]
    · have : hasSeq n rest = true := by
        rcases hh with h1 | h2
        · exact absurd h1 hl
        · exact h2
      simpa [countSubGo, hl] using ih this

theorem hasSeq_of_countSubGo_pos (n : List Char) :
    ∀ (h : List Char) (s : Nat), 0 < countSubGo n h s → hasSeq n h = true := by
  intro h
  induction h with
  | nil => intro s hs; simp [countSubGo] at hs
  | cons c rest ih =>
    intro s hs
    cases s with
    | succ s' =>
      have := ih s' (by simpa [countSubGo] using hs)
      simp [hasSeq, this]
    | zero =>
      by_cases hl : leadsWith n (c :: rest) = true
      · simp [hasSeq, hl]
      · have := ih 0 (by simpa [countSubGo, hl] using hs)
        simp [hasSeq, this]

theorem countSub_pos_iff_hasSeq (n h : List Char) (hn : n ≠ []) :
    0 < countSub n h ↔ hasSeq n h = true := by
  unfold countSub
  rw [if_neg hn]
  exact ⟨hasSeq_of_countSubGo_pos n h 0, countSubGo_pos_of_hasSeq n hn h⟩

theorem mem_dedupKeysAux [DecidableEq α] (seen : List α) (l : List α) (x : α) :
    x ∈ dedupKeysAux seen l ↔ x ∈ l ∧ x ∉ seen := by
  induction l generalizing seen with
  | nil => simp [dedupKeysAux]
  | cons y ys ih =>
    by_cases hy : y ∈ seen
    · rw [dedupKeysAux, if_pos hy, ih]
      constructor
      · rintro ⟨h1, h2⟩
        exact ⟨List.mem_cons_of_mem _ h1, h2⟩
      · rintro ⟨h1, h2⟩
        rcases List.mem_cons.mp h1 with rfl | h1
        · exact absurd hy h2
        · exact ⟨h1, h2⟩
    · rw [dedupKeysAux, if_neg hy]
      constructor
      · intro hx
        rcases List.mem_cons.mp hx with rfl | hx
        · exact ⟨List.mem_cons_self _ _, hy⟩
        · rcases (ih (y :: seen)).mp hx with ⟨h1, h2⟩
          exact ⟨List.mem_cons_of_mem _ h1, fun hs => h2 (List.mem_cons_of_mem _ hs)⟩
      · rintro ⟨h1, h2⟩
        rcases List.mem_cons.mp h1 with rfl | h1
        · exact List.mem_cons_self _ _
        · by_cases hxy : x = y
          · subst hxy; exact List.mem_cons_self _ _
          · refine List.mem_cons_of_mem _ ((ih (y :: seen)).mpr ⟨h1, fun hs => ?_⟩)
            rcases List.mem_cons.mp hs with h3 | h3
            · exact hxy h3
            · exact h2 h3

theorem dedupKeysAux_nodup [DecidableEq α] (seen : List α) (l : List α) :
    (dedupKeysAux seen l).Nodup := by
  induction l generalizing seen with
  | nil => simp [dedupKeysAux]
  | cons y ys ih =>
    by_cases hy : y ∈ seen
    · simpa [dedupKeysAux, if_pos hy] using ih seen
    · simp only [dedupKeysAux, if_neg hy]
      refine List.nodup_cons.mpr ⟨fun hmem => ?_, ih (y :: seen)⟩
      exact ((mem_dedupKeysAux (y :: seen) ys y).mp hmem).2 (List.mem_cons_self _ _)

theorem dedupKeys_nodup [DecidableEq α] (l : List α) : (dedupKeys l).Nodup :=
  dedupKeysAux_nodup [] l

theorem mem_dedupKeys [DecidableEq α] (l : List α) (x : α) :
    x ∈ dedupKeys l ↔ x ∈ l := by
  simp [dedupKeys, mem_dedupKeysAux]

theorem insBy_perm (le : α → α → Bool) (x : α) (l : List α) :
    List.Perm (insBy le x l) (x :: l) := by
  induction l with
  | nil => simp [insBy]
  | cons y ys ih =>
    by_cases h : le y x = true
    · simp only [insBy, if_pos h]
      exact (ih.cons y).trans (List.Perm.swap x y ys)
    · simp [insBy, h]

theorem sortByLe_perm (le : α → α → Bool) (l : List α) :
    List.Perm (sortByLe le l) l := by
  induction l with
  | nil => simp [sortByLe]
  | cons x xs ih => exact (insBy_perm le x (sortByLe le xs)).trans (ih.cons x)

theorem insBy_pairwise (le : α → α → Bool)
    (htot : ∀ a b, le a b = true ∨ le b a = true)
    (htrans : ∀ a b c, le a b = true → le b c = true → le a c = true)
    (x : α) (l : List α) (hl : l.Pairwise (fun a b => le a b = true)) :
    (insBy le x l).Pairwise (fun a b => le a b = true) := by
  induction l with
  | nil => simp [insBy]
  | cons y ys ih =>
    rcases List.pairwise_cons.mp hl with ⟨hy, hys⟩
    by_cases h : le y x = true
    · simp only [insBy, if_pos h]
      refine List.pairwise_cons.mpr ⟨?_, ih hys⟩
      intro b hb
      rcases List.mem_cons.mp ((insBy_perm le x ys).mem_iff.mp hb) with rfl | hb'
      · exact h
      · exact hy b hb'
    · simp only [insBy, if_neg h]
      have hxy : le x y = true := by
        rcases htot x y with h1 | h1
        · exact h1
        · exact absurd h1 h
      refine List.pairwise_cons.mpr ⟨?_, hl⟩
      intro b hb
      rcases List.mem_cons.mp hb with rfl | hb
      · exact hxy
      · exact htrans x y b hxy (hy b hb)

theorem sortByLe_pairwise (le : α → α → Bool)
    (htot : ∀ a b, le a b = true ∨ le b a = true)
    (htrans : ∀ a b c, le a b = true → le b c = true → le a c = true)
    (l : List α) : (sortByLe le l).Pairwise (fun a b => le a b = true) := by
  induction l with
  | nil => simp [sortByLe]
  | cons x xs ih => exact insBy_pairwise le htot htrans x _ ih

/-! ## Claim C1: the emotion diversity score formula -/

/-- C1 (amended): for every corpus, and for the aggregation over cached
per-chapter stats, the emotion diversity score is 50 when the reported total
occurrence count is 0, 60 when it is positive but below 10, and otherwise
`min(100, floor(200 * unique / total) + min(30, 3 * unique))` — the base term
is floored, not rounded, and is not capped at 70. -/
theorem c1_emotion_diversity_score_matches_code :
    (∀ chapters_content : List String,
      (analyze_emotion_diversity chapters_content).diversity_score =
        (if (analyze_emotion_diversity chapters_content).total_expressions = 0 then 50
         else if (analyze_emotion_diversity chapters_content).total_expressions < 10 then 60
         else min 100
           (200 * (analyze_emotion_diversity chapters_content).total_unique /
              (analyze_emotion_diversity chapters_content).total_expressions +
            min 30 ((analyze_emotion_diversity chapters_content).total_unique * 3)))) ∧
    (∀ chapter_analyses : List ChapterAnalysis,
      (aggregate_emotion_stats chapter_analyses).diversity_score =
        (if (aggregate_emotion_stats chapter_analyses).total_expressions = 0 then 50
         else if (aggregate_emotion_stats chapter_analyses).total_expressions < 10 then 60
         else min 100
           (200 * (aggregate_emotion_stats chapter_analyses).total_unique /
              (aggregate_emotion_stats chapter_analyses).total_expressions +
            min 30 ((aggregate_emotion_stats chapter_analyses).total_unique * 3)))) :=
  ⟨fun _ => rfl, fun _ => rfl⟩

/-- C1 counterexample: on a corpus with 5 distinct expressions totalling 10
occurrences the code scores 100, while the claimed formula (with the
`min(70, …)` cap) gives 85; on a corpus with 3 distinct expressions totalling
16 occurrences the code scores 46 (the 37.5 base is floored to 37), while the
claimed formula (with `round`) gives 47. -/
theorem c1_counterexample :
    (analyze_emotion_diversity exampleCorpusA).total_expressions = 10 ∧
    (analyze_emotion_diversity exampleCorpusA).total_unique = 5 ∧
    (analyze_emotion_diversity exampleCorpusA).diversity_score = 100 ∧
    (100 : ℤ) ≠ min 100 (min 70 (round ((200 * 5 : ℚ) / 10)) + min 30 (3 * 5)) ∧
    (analyze_emotion_diversity exampleCorpusB).total_expressions = 16 ∧
    (analyze_emotion_diversity exampleCorpusB).total_unique = 3 ∧
    (analyze_emotion_diversity exampleCorpusB).diversity_score = 46 ∧
    (46 : ℤ) ≠ min 100 (min 70 (round ((200 * 3 : ℚ) / 16)) + min 30 (3 * 3)) := by
  refine ⟨by decide, by decide, by decide, ?_, by decide, by decide, by decide, ?_⟩
  · have : round ((200 * 5 : ℚ) / 10) = 100 := by norm_num [round_eq]
    rw [this]; decide
  · have : round ((200 * 3 : ℚ) / 16) = 38 := by norm_num [round_eq]
    rw [this]; decide

/-! ## Claim C2: the narrative (n-gram) diversity score formula -/

/-- C2 (amended): the narrative diversity score equals
`min(100, floor(200 * unique_bigrams / total_bigrams))` when at least one
bigram exists — floored, not rounded — and 100 when there are no bigrams. -/
theorem c2_ngram_diversity_score_matches_code (templates : List TItem) :
    (analyze_ngram_patterns templates).diversity_score =
      (if (analyze_ngram_patterns templates).total_bigrams = 0 then 100
       else min 100 (200 * (analyze_ngram_patterns templates).unique_bigrams /
         (analyze_ngram_patterns templates).total_bigrams)) := by
  have h : ∀ (b x : Nat), (if b > 0 then x else 100) = (if b = 0 then 100 else x) := by
    intro b x; cases b <;> simp
  exact h _ _

/-- C2 counterexample: a single 17-sentence chapter with 16 bigrams of which
3 are distinct gives `200*3/16 = 37.5`; the code floors to 37 while the
claimed `round` gives 38. -/
theorem c2_counterexample :
    (analyze_ngram_patterns exampleNgramTemplates).total_bigrams = 16 ∧
    (analyze_ngram_patterns exampleNgramTemplates).unique_bigrams = 3 ∧
    (analyze_ngram_patterns exampleNgramTemplates).diversity_score = 37 ∧
    (37 : ℤ) ≠ min 100 (round ((200 * 3 : ℚ) / 16)) := by
  refine ⟨by decide, by decide, by decide, ?_⟩
  have : round ((200 * 3 : ℚ) / 16) = 38 := by norm_num [round_eq]
  rw [this]; decide

/-! ## Claim C4: no adjacent identical placeholders in templates -/

theorem has_adjacent_noun_cons (a : String) (l : List String) :
    has_adjacent_noun (a :: l) =
      (match l.head? with
       | some b => (a == "[名词]" && b == "[名词]") || has_adjacent_noun l
       | none => false) := by
  cases l <;> rfl

theorem has_adjacent_equal_placeholder_cons (a : String) (l : List String) :
    has_adjacent_equal_placeholder (a :: l) =
      (match l.head? with
       | some b => (a == b && pyStartsWith a "[") || has_adjacent_equal_placeholder l
       | none => false) := by
  cases l <;> rfl

theorem has_adjacent_noun_cons_false (a : String) (M : List String)
    (hM : has_adjacent_noun M = false)
    (h : ∀ y, M.head? = some y → (a == "[名词]" && y == "[名词]") = false) :
    has_adjacent_noun (a :: M) = false := by
  cases M with
  | nil => rfl
  | cons y ys =>
    have hy := h y rfl
    have : has_adjacent_noun (a :: y :: ys) =
        ((a == "[名词]" && y == "[名词]") || has_adjacent_noun (y :: ys)) := rfl
    rw [this, hy, hM]
    rfl

/-- The jieba merge loop never leaves two adjacent equal items of which the
second is a placeholder, whatever item stream it is fed. -/
theorem merge_dup_no_adjacent : ∀ (items : List String) (prev : Option String),
    has_adjacent_equal_placeholder (merge_dup_placeholders items prev) = false ∧
    (∀ x, (merge_dup_placeholders items prev).head? = some x →
      (pyStartsWith x "[" && (some x == prev)) = false) := by
  intro items
  induction items with
  | nil =>
    intro prev
    refine ⟨rfl, ?_⟩
    intro x hx
    simp [merge_dup_placeholders] at hx
  | cons it rest ih =>
    intro prev
    by_cases hskip : (pyStartsWith it "[" && (some it == prev)) = true
    · have hunf : merge_dup_placeholders (it :: rest) prev = merge_dup_placeholders rest prev := by
        simp only [merge_dup_placeholders, if_pos hskip]
      rw [hunf]
      exact ih prev
    · have hskip' : (pyStartsWith it "[" && (some it == prev)) = false :=
        Bool.eq_false_iff.mpr hskip
      have hunf : merge_dup_placeholders (it :: rest) prev =
          it :: merge_dup_placeholders rest (some it) := by
        simp only [merge_dup_placeholders, if_neg hskip]
      rw [hunf]
      obtain ⟨ih1, ih2⟩ := ih (some it)
      constructor
      · cases hM : merge_dup_placeholders rest (some it) with
        | nil => rfl
        | cons y ys =>
          have hy := ih2 y (by rw [hM]; rfl)
          have hgoal : has_adjacent_equal_placeholder (it :: y :: ys) =
              ((it == y && pyStartsWith it "[") || has_adjacent_equal_placeholder (y :: ys)) := rfl
          rw [hgoal]
          have h1 : (it == y && pyStartsWith it "[") = false := by
            by_cases hit : it = y
            · subst hit
              simp only [beq_self_eq_true, Bool.and_true] at hy
              simp [hy]
            · simp [hit]
          rw [h1]
          rw [hM] at ih1
          rw [ih1]
          rfl
      · intro x hx
        have hx' : it = x := by simpa using hx
        rw [← hx']
        exact hskip'

/-- The fallback strategy emits the noun placeholder only when the previous
item is not already a noun placeholder. -/
theorem simple_single_item_noun (c : Char) (last : Option String)
    (h : simple_single_item c last = some "[名词]") : (last == some "[名词]") = false := by
  simp only [simple_single_item] at h
  split at h
  · have := congrArg String.data (Option.some.inj h)
    simp at this
  · split at h
    · exact absurd (Option.some.inj h) (by decide)
    · split at h
      · have := congrArg String.data (Option.some.inj h)
        simp at this
      · split at h
        · split at h
          · exact absurd h (by simp)
          · rename_i hcond
            exact Bool.eq_false_iff.mpr hcond
        · have := congrArg String.data (Option.some.inj h)
          simp at this

/-- The fallback strategy never leaves two adjacent noun placeholders. -/
theorem simple_items_no_adjacent_noun : ∀ (cs : List Char) (last : Option String),
    has_adjacent_noun (simple_template_items cs last) = false ∧
    (∀ x, (simple_template_items cs last).head? = some x → x = "[名词]" →
      (last == some "[名词]") = false) := by
  intro cs last
  induction cs, last using simple_template_items.induct with
  | case1 last => exact ⟨rfl, by intro x hx; simp [simple_template_items] at hx⟩
  | case2 c last it hit =>
    refine ⟨?_, ?_⟩
    · simp [simple_template_items, hit, has_adjacent_noun]
    · intro x hx hxn
      rw [simple_template_items, hit] at hx
      have hix : it = x := by simpa using hx
      exact simple_single_item_noun c last (by rw [hit, hix, hxn])
  | case3 c last hit =>
    refine ⟨?_, ?_⟩
    · simp [simple_template_items, hit, has_adjacent_noun]
    · intro x hx
      rw [simple_template_items, hit] at hx
      simp at hx
  | case4 c c2 rest2 last two htwo ih =>
    obtain ⟨ih1, ih2⟩ := ih
    have hne : two ≠ ("[名词]" : String) := by
      intro hcontra
      have hd := congrArg String.data hcontra
      simp at hd
    have hunf : simple_template_items (c :: c2 :: rest2) last =
        two :: simple_template_items rest2 (some two) := by
      simp only [simple_template_items]
      rw [if_pos htwo]
    refine ⟨?_, ?_⟩
    · rw [hunf]
      refine has_adjacent_noun_cons_false two _ ih1 ?_
      intro y hy
      simp [hne]
    · intro x hx hxn
      rw [hunf] at hx
      have hix : two = x := by simpa using hx
      exact absurd (hix.trans hxn) hne
  | case5 c c2 rest2 last two htwo hpron ih =>
    obtain ⟨ih1, ih2⟩ := ih
    have hunf : simple_template_items (c :: c2 :: rest2) last =
        "[代词]" :: simple_template_items rest2 (some "[代词]") := by
      simp only [simple_template_items]
      rw [if_neg htwo, if_pos hpron]
    refine ⟨?_, ?_⟩
    · rw [hunf]
      refine has_adjacent_noun_cons_false _ _ ih1 ?_
      intro y hy
      simp
    · intro x hx hxn
      rw [hunf] at hx
      have hix : ("[代词]" : String) = x := by simpa using hx
      exact absurd (hix.trans hxn) (by decide)
  | case6 c c2 rest2 last two htwo hpron it hit ih =>
    obtain ⟨ih1, ih2⟩ := ih
    have hunf : simple_template_items (c :: c2 :: rest2) last =
        it :: simple_template_items (c2 :: rest2) (some it) := by
      simp only [simple_template_items]
      rw [if_neg htwo, if_neg hpron, hit]
    refine ⟨?_, ?_⟩
    · rw [hunf]
      refine has_adjacent_noun_cons_false it _ ih1 ?_
      intro y hy
      by_cases hitnoun : it = "[名词]"
      · by_cases hynoun : y = "[名词]"
        · have hcontra := ih2 y hy hynoun
          rw [hitnoun] at hcontra
          simp at hcontra
        · simp [hynoun]
      · simp [hitnoun]
    · intro x hx hxn
      rw [hunf] at hx
      have hix : it = x := by simpa using hx
      exact simple_single_item_noun c last (by rw [hit, hix, hxn])
  | case7 c c2 rest2 last two htwo hpron hit ih =>
    obtain ⟨ih1, ih2⟩ := ih
    have hunf : simple_template_items (c :: c2 :: rest2) last =
        simple_template_items (c2 :: rest2) last := by
      simp only [simple_template_items]
      rw [if_neg htwo, if_neg hpron, hit]
    refine ⟨hunf ▸ ih1, ?_⟩
    intro x hx hxn
    exact ih2 x (hunf ▸ hx) hxn

/-- C4 (amended): the jieba-backed strategy never emits two adjacent identical
placeholder tokens, for every token stream the external tagger may produce;
the character-class fallback strategy merges only consecutive noun
placeholders (`[名词][名词]` never occurs), but it does not merge other
placeholders — adjacent identical pronoun placeholders can occur. -/
theorem c4_no_adjacent_identical_placeholders :
    (∀ tokens : List (String × String),
      has_adjacent_equal_placeholder
        (merge_dup_placeholders (tokens.map (fun p => jieba_token_item p.1 p.2)) none) = false) ∧
    (∀ sentence : String,
      has_adjacent_noun (simple_template_items sentence.data none) = false) :=
  ⟨fun _ => (merge_dup_no_adjacent _ none).1,
   fun sentence => (simple_items_no_adjacent_noun sentence.data none).1⟩

/-- C4 counterexample: the fallback strategy maps the sentence `我你` to two
adjacent identical pronoun placeholders, so its template contains the
substring `[代词][代词]`. -/
theorem c4_counterexample :
    simple_template_items "我你".data none = ["[代词]", "[代词]"] ∧
    has_adjacent_equal_placeholder (simple_template_items "我你".data none) = true ∧
    extract_template_simple_impl "我你" = "[代词][代词]" ∧
    strContains (extract_template_simple_impl "我你") "[代词][代词]" = true := by
  exact ⟨by decide, by decide, by decide, by decide⟩

/-! ## Claim C9: short chapters have all-opening, no-ending sentences -/

/-- C9 (confirmed): when a chapter's extracted sentence count is at most 3,
every sentence record is flagged as an opening and none as an ending — in the
full-analysis record builder and in the per-chapter cached analysis alike. -/
theorem c9_short_chapter_flags (extractT : String → String) (pid cid : String)
    (cnum : Nat) (title content : String)
    (h : (split_sentences content).length ≤ 3) :
    (∀ r ∈ sentence_records_of_chapter
        { id := cid, project_id := pid, chapter_number := cnum, title := title,
          content := content },
      r.is_opening = true ∧ r.is_ending = false) ∧
    (∀ t ∈ (analyze_single_chapter extractT cid cnum content title).templates,
      t.is_opening = true ∧ t.is_ending = false) := by
  constructor
  · intro r hr
    simp only [sentence_records_of_chapter, List.mem_map] at hr
    obtain ⟨p, hp, rfl⟩ := hr
    have hlt : p.1 < (split_sentences content).length := List.fst_lt_of_mem_enum hp
    constructor
    · simp only [decide_eq_true_eq]
      omega
    · simp only []
      rw [if_neg]
      omega
  · intro t ht
    simp only [analyze_single_chapter] at ht
    by_cases hc : content = ""
    · simp [hc] at ht
    · simp only [if_neg hc, List.mem_map] at ht
      obtain ⟨p, hp, rfl⟩ := ht
      have hlt : p.1 < ((split_sentences content).zip
          (extract_templates_batch extractT (split_sentences content))).length :=
        List.fst_lt_of_mem_enum hp
      have hlt' : p.1 < (split_sentences content).length := by
        have hz : ((split_sentences content).zip
            (extract_templates_batch extractT (split_sentences content))).length =
            min (split_sentences content).length
              (extract_templates_batch extractT (split_sentences content)).length :=
          List.length_zip _ _
        omega
      constructor
      · simp only [decide_eq_true_eq]
        omega
      · simp only []
        rw [if_neg]
        omega

/-- C9 witness: a concrete two-sentence chapter. -/
theorem c9_witness :
    (split_sentences exampleShortContent).length ≤ 3 ∧
    ((∀ r ∈ sentence_records_of_chapter
        { id := "c1", project_id := "p", chapter_number := 1, title := "第1章",
          content := exampleShortContent },
      r.is_opening = true ∧ r.is_ending = false) ∧
    (∀ t ∈ (analyze_single_chapter extract_template_simple_impl "c1" 1
        exampleShortContent "第1章").templates,
      t.is_opening = true ∧ t.is_ending = false)) :=
  ⟨by decide,
   c9_short_chapter_flags extract_template_simple_impl "p" "c1" 1 "第1章"
     exampleShortContent (by decide)⟩

/-! ## Claim C10: independent substring counts of nested expressions -/

theorem counterTotal_filterMap_counts (exprs : List String) (f : String → Nat) :
    counterTotal (exprs.filterMap (fun e => if f e > 0 then some (e, f e) else none))
      = (exprs.map f).sum := by
  induction exprs with
  | nil => rfl
  | cons e l ih =>
    by_cases h : f e > 0
    · simp only [List.filterMap_cons, if_pos h, List.map_cons, List.sum_cons]
      simp only [counterTotal, List.map_cons, List.sum_cons] at ih ⊢
      omega
    · have h0 : f e = 0 := by omega
      simp only [List.filterMap_cons, if_neg h, List.map_cons, List.sum_cons]
      simp only [counterTotal] at ih ⊢
      omega

theorem find_filterMap_eq (exprs : List String) (f : String → Nat) (e : String)
    (he : e ∈ exprs) (hf : 0 < f e) (hnd : exprs.Nodup) :
    (exprs.filterMap (fun x => if f x > 0 then some (x, f x) else none)).find?
      (fun p => p.1 == e) = some (e, f e) := by
  induction exprs with
  | nil => simp at he
  | cons x l ih =>
    rcases List.nodup_cons.mp hnd with ⟨hx, hl⟩
    rcases List.mem_cons.mp he with rfl | hmem
    · simp only [List.filterMap_cons, if_pos hf]
      simp [List.find?]
    · have hne : x ≠ e := fun hcontra => hx (hcontra ▸ hmem)
      by_cases hfx : f x > 0
      · simp only [List.filterMap_cons, if_pos hfx]
        rw [List.find?_cons_of_neg _ (by simp [hne])]
        exact ih hmem hl
      · simp only [List.filterMap_cons, if_neg hfx]
        exact ih hmem hl

theorem find?_filterMap_keyed {α β : Type} (l : List (String × α))
    (f : String × α → Option (String × β))
    (hkey : ∀ p q, f p = some q → q.1 = p.1)
    (k : String) (hnd : (l.map (·.1)).Nodup) (a : α) (b : String × β)
    (hmem : (k, a) ∈ l) (hf : f (k, a) = some b) :
    (l.filterMap f).find? (fun p => p.1 == k) = some b := by
  induction l with
  | nil => simp at hmem
  | cons p rest ih =>
    simp only [List.map_cons, List.nodup_cons] at hnd
    rcases List.mem_cons.mp hmem with heq | hmem'
    · rw [← heq]
      simp only [List.filterMap_cons, hf]
      have hb1 : b.1 = k := hkey _ _ hf
      rw [List.find?_cons_of_pos _ (by simp [hb1])]
    · have hne : p.1 ≠ k := by
        intro hcontra
        exact hnd.1 (hcontra ▸ (List.mem_map.mpr ⟨(k, a), hmem', rfl⟩))
      cases hfp : f p with
      | none =>
        simp only [List.filterMap_cons, hfp]
        exact ih hnd.2 hmem'
      | some q =>
        simp only [List.filterMap_cons, hfp]
        have hq1 : q.1 = p.1 := hkey _ _ hfp
        rw [List.find?_cons_of_neg _ (by simp [hq1, hne])]
        exact ih hnd.2 hmem'

/-- An occurrence of `勃然大怒` is in particular an occurrence of its
substring `大怒` for the non-overlapping counter. -/
theorem strCount_daNu_of_boRan (T : String) (h : 1 ≤ strCount T "勃然大怒") :
    1 ≤ strCount T "大怒" := by
  have h1 : hasSeq "勃然大怒".data T.data = true :=
    (countSub_pos_iff_hasSeq "勃然大怒".data T.data (by decide)).mp h
  have h2 : hasSeq "大怒".data "勃然大怒".data = true := by decide
  exact (countSub_pos_iff_hasSeq "大怒".data T.data (by decide)).mpr (hasSeq_trans h2 h1)

/-- C10 (confirmed): emotion occurrences are independent substring counts, so
a text containing `勃然大怒` counts both `勃然大怒` and its substring `大怒`;
the angry total is at least 2 — in the whole-corpus counter and in the cached
per-chapter statistics alike. -/
theorem c10_nested_expression_double_count (extractT : String → String)
    (chapters_content : List String) (cid : String) (cnum : Nat)
    (content title : String)
    (h1 : 1 ≤ strCount (String.intercalate "\n" chapters_content) "勃然大怒")
    (h2 : 1 ≤ strCount content "勃然大怒") :
    (2 ≤ counterTotal (angry_counter chapters_content) ∧
     (angry_counter chapters_content).find? (fun p => p.1 == "大怒")
        = some ("大怒", strCount (String.intercalate "\n" chapters_content) "大怒") ∧
     (angry_counter chapters_content).find? (fun p => p.1 == "勃然大怒")
        = some ("勃然大怒", strCount (String.intercalate "\n" chapters_content) "勃然大怒")) ∧
    (∃ st, emotion_stats_lookup
        (analyze_single_chapter extractT cid cnum content title).emotion_stats "angry"
          = some st ∧
      2 ≤ st.total ∧
      st.expressions.find? (fun p => p.1 == "大怒")
        = some ("大怒", strCount content "大怒") ∧
      st.expressions.find? (fun p => p.1 == "勃然大怒")
        = some ("勃然大怒", strCount content "勃然大怒")) := by
  constructor
  · have hda : 1 ≤ strCount (String.intercalate "\n" chapters_content) "大怒" :=
      strCount_daNu_of_boRan _ h1
    have hform : angry_counter chapters_content =
        (["怒道", "怒吼", "冷哼", "大怒", "勃然大怒",
          "气愤地", "愤怒地", "怒气冲冲", "火冒三丈"]).filterMap
          (fun x => if strCount (String.intercalate "\n" chapters_content) x > 0
            then some (x, strCount (String.intercalate "\n" chapters_content) x) else none) := rfl
    rw [hform]
    refine ⟨?_, ?_, ?_⟩
    · rw [counterTotal_filterMap_counts]
      simp only [List.map_cons, List.map_nil, List.sum_cons, List.sum_nil]
      omega
    · exact find_filterMap_eq _ _ _ (by decide) hda (by decide)
    · exact find_filterMap_eq _ _ _ (by decide) h1 (by decide)
  · have hc : content ≠ "" := by
      intro h0
      rw [h0] at h2
      exact absurd h2 (by decide)
    have hda : 1 ≤ strCount content "大怒" := strCount_daNu_of_boRan _ h2
    have hcount : counterTotal ((["怒道", "怒吼", "冷哼", "大怒", "勃然大怒",
          "气愤地", "愤怒地", "怒气冲冲", "火冒三丈"]).filterMap
          (fun x => if strCount content x > 0 then some (x, strCount content x) else none))
        = ((["怒道", "怒吼", "冷哼", "大怒", "勃然大怒",
          "气愤地", "愤怒地", "怒气冲冲", "火冒三丈"]).map (fun x => strCount content x)).sum :=
      counterTotal_filterMap_counts _ _
    have hpos : 2 ≤ counterTotal ((["怒道", "怒吼", "冷哼", "大怒", "勃然大怒",
          "气愤地", "愤怒地", "怒气冲冲", "火冒三丈"]).filterMap
          (fun x => if strCount content x > 0 then some (x, strCount content x) else none)) := by
      rw [hcount]
      simp only [List.map_cons, List.map_nil, List.sum_cons, List.sum_nil]
      omega
    refine ⟨⟨counterTotal ((["怒道", "怒吼", "冷哼", "大怒", "勃然大怒",
          "气愤地", "愤怒地", "怒气冲冲", "火冒三丈"]).filterMap
          (fun x => if strCount content x > 0 then some (x, strCount content x) else none)),
        (["怒道", "怒吼", "冷哼", "大怒", "勃然大怒",
          "气愤地", "愤怒地", "怒气冲冲", "火冒三丈"]).filterMap
          (fun x => if strCount content x > 0 then some (x, strCount content x) else none)⟩,
      ?_, hpos, ?_, ?_⟩
    · have hunf : (analyze_single_chapter extractT cid cnum content title).emotion_stats =
          EMOTION_VOCABULARY.filterMap (fun ec =>
            let found : List (String × Nat) := ec.2.expressions.filterMap (fun expr =>
              let c := strCount content expr
              if c > 0 then some (expr, c) else none)
            let count : Nat := (found.map (·.2)).sum
            if count > 0 then some (ec.1, ({ total := count, expressions := found } : EmotionStat))
            else none) := by
        simp only [analyze_single_chapter, if_neg hc]
      rw [emotion_stats_lookup, hunf]
      have hfind : (EMOTION_VOCABULARY.filterMap (fun ec =>
            let found : List (String × Nat) := ec.2.expressions.filterMap (fun expr =>
              let c := strCount content expr
              if c > 0 then some (expr, c) else none)
            let count : Nat := (found.map (·.2)).sum
            if count > 0 then some (ec.1, ({ total := count, expressions := found } : EmotionStat))
            else none)).find? (fun p => p.1 == "angry")
          = some ("angry",
              (⟨counterTotal ((["怒道", "怒吼", "冷哼", "大怒", "勃然大怒",
                  "气愤地", "愤怒地", "怒气冲冲", "火冒三丈"]).filterMap
                  (fun x => if strCount content x > 0 then some (x, strCount content x) else none)),
                (["怒道", "怒吼", "冷哼", "大怒", "勃然大怒",
                  "气愤地", "愤怒地", "怒气冲冲", "火冒三丈"]).filterMap
                  (fun x => if strCount content x > 0
                    then some (x, strCount content x) else none)⟩ : EmotionStat)) := by
        apply find?_filterMap_keyed _ _ ?hkey _ ?hnd
          ⟨["怒", "气", "愤", "恼", "火"],
           ["怒道", "怒吼", "冷哼", "大怒", "勃然大怒",
            "气愤地", "愤怒地", "怒气冲冲", "火冒三丈"]⟩ _ ?hmem ?hf
        case hkey =>
          intro p q hq
          dsimp only at hq
          split at hq
          · exact (Option.some.inj hq) ▸ rfl
          · exact absurd hq (by simp)
        case hnd => decide
        case hmem => decide
        case hf =>
          dsimp only
          rw [if_pos]
          · rfl
          · exact Nat.lt_of_lt_of_le (by decide) hpos
      rw [hfind]
      rfl
    · exact find_filterMap_eq _ _ _ (by decide) hda (by decide)
    · exact find_filterMap_eq _ _ _ (by decide) h2 (by decide)

/-- C10 witness: the one-sentence chapter `他勃然大怒。`. -/
theorem c10_witness :
    1 ≤ strCount (String.intercalate "\n" [exampleAngryText]) "勃然大怒" ∧
    (2 ≤ counterTotal (angry_counter [exampleAngryText]) ∧
     (angry_counter [exampleAngryText]).find? (fun p => p.1 == "大怒")
        = some ("大怒", strCount (String.intercalate "\n" [exampleAngryText]) "大怒") ∧
     (angry_counter [exampleAngryText]).find? (fun p => p.1 == "勃然大怒")
        = some ("勃然大怒", strCount (String.intercalate "\n" [exampleAngryText]) "勃然大怒")) ∧
    (∃ st, emotion_stats_lookup
        (analyze_single_chapter extract_template_simple_impl "c1" 1
          exampleAngryText "第1章").emotion_stats "angry" = some st ∧
      2 ≤ st.total ∧
      st.expressions.find? (fun p => p.1 == "大怒")
        = some ("大怒", strCount exampleAngryText "大怒") ∧
      st.expressions.find? (fun p => p.1 == "勃然大怒")
        = some ("勃然大怒", strCount exampleAngryText "勃然大怒")) :=
  ⟨by decide,
   (c10_nested_expression_double_count extract_template_simple_impl [exampleAngryText]
     "c1" 1 exampleAngryText "第1章" (by decide) (by decide)).1,
   (c10_nested_expression_double_count extract_template_simple_impl [exampleAngryText]
     "c1" 1 exampleAngryText "第1章" (by decide) (by decide)).2⟩

/-! ## Claim C3: per-chapter n-gram counts and the chapter boundary -/

theorem length_filter_flatMap_key {α β : Type} [DecidableEq α] [BEq α] [LawfulBEq α]
    (key : β → α) (F : α → List β)
    (cids : List α) (hnd : cids.Nodup) (cid : α)
    (hkey : ∀ c ∈ cids, ∀ g ∈ F c, key g = c) :
    ((cids.flatMap F).filter (fun g => key g == cid)).length
      = if cid ∈ cids then (F cid).length else 0 := by
  induction cids with
  | nil => simp
  | cons c rest ih =>
    rcases List.nodup_cons.mp hnd with ⟨hc, hrest⟩
    rw [List.flatMap_cons, List.filter_append, List.length_append]
    have hkc : ∀ g ∈ F c, key g = c := fun g hg => hkey c (List.mem_cons_self _ _) g hg
    have ihr := ih hrest (fun c' hc' g hg => hkey c' (List.mem_cons_of_mem _ hc') g hg)
    by_cases hcc : c = cid
    · subst hcc
      have h1 : (F c).filter (fun g => key g == c) = F c :=
        List.filter_eq_self.mpr (fun g hg => by simp [hkc g hg])
      rw [h1, ihr, if_neg hc, if_pos (List.mem_cons_self _ _)]
      omega
    · have h1 : (F c).filter (fun g => key g == cid) = [] := by
        rw [List.filter_eq_nil_iff]
        intro g hg
        simp [hkc g hg, hcc]
      rw [h1, ihr]
      simp only [List.length_nil, Nat.zero_add]
      by_cases hmem : cid ∈ rest
      · rw [if_pos hmem, if_pos (List.mem_cons_of_mem _ hmem)]
      · rw [if_neg hmem, if_neg (fun hx => ?_)]
        rcases List.mem_cons.mp hx with h | h
        · exact hcc h.symm
        · exact hmem h

theorem chapter_ngrams_chapter_id (n : Nat) (cid : String) (group : List TItem) :
    ∀ g ∈ chapter_ngrams n cid group, g.chapter_id = cid := by
  intro g hg
  unfold chapter_ngrams at hg
  split at hg
  · simp at hg
  · dsimp only at hg
    rcases List.mem_map.mp hg with ⟨i, _, rfl⟩
    rfl

theorem chapter_ngrams_length (n : Nat) (cid : String) (group : List TItem) :
    (chapter_ngrams n cid group).length =
      if group.length < n then 0 else group.length - n + 1 := by
  unfold chapter_ngrams
  split
  · rfl
  · dsimp only
    rw [List.length_map, List.length_range]

theorem chapter_ngrams_members_sub (n : Nat) (cid : String) (group : List TItem) :
    ∀ g ∈ chapter_ngrams n cid group, ∀ m ∈ g.members, m ∈ group := by
  intro g hg m hm
  unfold chapter_ngrams at hg
  split at hg
  · simp at hg
  · dsimp only at hg
    rcases List.mem_map.mp hg with ⟨i, _, rfl⟩
    exact List.mem_of_mem_drop (List.mem_of_mem_take hm)

theorem extract_ngrams_chapter_count (templates : List TItem) (n : Nat) (hn : 1 ≤ n)
    (cid : String) :
    ((extract_ngrams templates n).filter (fun g => g.chapter_id == cid)).length
      = (templates.filter (fun t => t.chapter_id == cid)).length - (n - 1) := by
  have hkle : (templates.filter (fun t => t.chapter_id == cid)).length ≤ templates.length :=
    List.length_filter_le _ _
  by_cases hlen : templates.length < n
  · unfold extract_ngrams
    rw [if_pos hlen]
    simp only [List.filter_nil, List.length_nil]
    omega
  · unfold extract_ngrams
    rw [if_neg hlen]
    have hkey : ∀ c ∈ dedupKeys (templates.map (fun t => t.chapter_id)),
        ∀ g ∈ chapter_ngrams n c (sortByLe (fun a b => decide (a.position ≤ b.position))
          (templates.filter (fun t => t.chapter_id == c))), g.chapter_id = c :=
      fun c _ => chapter_ngrams_chapter_id n c _
    rw [length_filter_flatMap_key (fun g : NGramRec => g.chapter_id)
      (fun c => chapter_ngrams n c (sortByLe (fun a b => decide (a.position ≤ b.position))
        (templates.filter (fun t => t.chapter_id == c))))
      (dedupKeys (templates.map (fun t => t.chapter_id))) (dedupKeys_nodup _) cid hkey]
    have hglen : (sortByLe (fun a b => decide (a.position ≤ b.position))
        (templates.filter (fun t => t.chapter_id == cid))).length
        = (templates.filter (fun t => t.chapter_id == cid)).length :=
      (sortByLe_perm _ _).length_eq
    by_cases hmem : cid ∈ dedupKeys (templates.map (fun t => t.chapter_id))
    · rw [if_pos hmem, chapter_ngrams_length, hglen]
      by_cases hgr : (templates.filter (fun t => t.chapter_id == cid)).length < n
      · rw [if_pos hgr]
        omega
      · rw [if_neg hgr]
        omega
    · rw [if_neg hmem]
      have hK : (templates.filter (fun t => t.chapter_id == cid)).length = 0 := by
        by_contra hK0
        have hpos : 0 < (templates.filter (fun t => t.chapter_id == cid)).length :=
          Nat.pos_of_ne_zero hK0
        rcases List.exists_mem_of_length_pos hpos with ⟨t, ht⟩
        rcases List.mem_filter.mp ht with ⟨htmem, htid⟩
        exact hmem ((mem_dedupKeys _ _).mpr
          (List.mem_map.mpr ⟨t, htmem, by simpa using htid⟩))
      omega

theorem extract_ngrams_members (templates : List TItem) (n : Nat) :
    ∀ g ∈ extract_ngrams templates n, ∀ m ∈ g.members, m.chapter_id = g.chapter_id := by
  intro g hg m hm
  unfold extract_ngrams at hg
  by_cases hlen : templates.length < n
  · rw [if_pos hlen] at hg
    simp at hg
  · rw [if_neg hlen] at hg
    rcases List.mem_flatMap.mp hg with ⟨c, hcmem, hgc⟩
    have hid : g.chapter_id = c := chapter_ngrams_chapter_id n c _ g hgc
    have hmg : m ∈ sortByLe (fun a b => decide (a.position ≤ b.position))
        (templates.filter (fun t => t.chapter_id == c)) :=
      chapter_ngrams_members_sub n c _ g hgc m hm
    have hmf : m ∈ templates.filter (fun t => t.chapter_id == c) :=
      (sortByLe_perm _ _).mem_iff.mp hmg
    have := (List.mem_filter.mp hmf).2
    rw [hid]
    simpa using this

/-- C3 (confirmed): for each chapter with `k` sentence templates,
`extract_ngrams` yields exactly `max(0, k-1)` bigrams and `max(0, k-2)`
trigrams (truncated subtraction), and every n-gram's member sentences belong
to the n-gram's single chapter. -/
theorem c3_ngram_counts_and_boundary (templates : List TItem) (cid : String) :
    (((extract_ngrams templates 2).filter (fun g => g.chapter_id == cid)).length
      = (templates.filter (fun t => t.chapter_id == cid)).length - 1) ∧
    (((extract_ngrams templates 3).filter (fun g => g.chapter_id == cid)).length
      = (templates.filter (fun t => t.chapter_id == cid)).length - 2) ∧
    (∀ n, ∀ g ∈ extract_ngrams templates n, ∀ m ∈ g.members, m.chapter_id = g.chapter_id) :=
  ⟨extract_ngrams_chapter_count templates 2 (by decide) cid,
   extract_ngrams_chapter_count templates 3 (by decide) cid,
   fun n => extract_ngrams_members templates n⟩

/-! ## Claim C5: clustering partition, minimum size, and ordering -/

theorem sorted_list_props (L : List (List TItem))
    (h2 : ∀ c ∈ L, 2 ≤ c.length)
    (hd : L.Pairwise (fun c d => ∀ x, x ∈ c → x ∉ d)) :
    (∀ c ∈ sortByLe (fun a b => decide (b.length ≤ a.length)) L, 2 ≤ c.length) ∧
    (sortByLe (fun a b => decide (b.length ≤ a.length)) L).Pairwise
      (fun c d => ∀ x, x ∈ c → x ∉ d) ∧
    (sortByLe (fun a b => decide (b.length ≤ a.length)) L).Pairwise
      (fun c d => d.length ≤ c.length) := by
  have hperm := sortByLe_perm (fun a b => decide (b.length ≤ a.length)) L
  refine ⟨?_, ?_, ?_⟩
  · intro c hc
    exact h2 c (hperm.mem_iff.mp hc)
  · exact (List.Perm.pairwise_iff (fun {a b} h x hxb hxa => h x hxa hxb) hperm).mpr hd
  · have hs := sortByLe_pairwise (fun a b => decide (b.length ≤ a.length))
      (fun a b => by
        rcases Nat.le_total b.length a.length with h | h
        · exact Or.inl (by simpa using h)
        · exact Or.inr (by simpa using h))
      (fun a b c hab hbc => by
        simp only [decide_eq_true_eq] at hab hbc ⊢
        omega) L
    exact hs.imp (fun {a b} h => by simpa using h)

theorem cluster_list_mem_ge2 (valid : List TItem) (cl : TCluster)
    (h : cl ∈ (dedupKeys (valid.map (fun t => t.template))).filterMap (fun k =>
        let items := valid.filter (fun t => t.template == k)
        if items.length ≥ 2 then some (⟨k, items⟩ : TCluster) else none)) :
    2 ≤ cl.items.length := by
  rcases List.mem_filterMap.mp h with ⟨k, _, hf⟩
  dsimp only at hf
  split at hf
  · rename_i hge
    cases Option.some.inj hf
    exact hge
  · simp at hf

theorem cluster_list_pairwise (valid : List TItem) :
    ((dedupKeys (valid.map (fun t => t.template))).filterMap (fun k =>
        let items := valid.filter (fun t => t.template == k)
        if items.length ≥ 2 then some (⟨k, items⟩ : TCluster) else none)).Pairwise
      (fun a b => ∀ x, x ∈ a.items → x ∉ b.items) := by
  rw [List.pairwise_filterMap]
  have hnd : (dedupKeys (valid.map (fun t => t.template))).Nodup := dedupKeys_nodup _
  refine hnd.imp ?_
  intro k k' hne cl hcl cl' hcl'
  dsimp only at hcl hcl'
  split at hcl
  · split at hcl'
    · have hcleq : (⟨k, valid.filter (fun t => t.template == k)⟩ : TCluster) = cl := by
        simpa using hcl
      have hcleq' : (⟨k', valid.filter (fun t => t.template == k')⟩ : TCluster) = cl' := by
        simpa using hcl'
      subst hcleq
      subst hcleq'
      intro x hx hx'
      simp only [List.mem_filter] at hx hx'
      have h1 : x.template = k := by simpa using hx.2
      have h2 : x.template = k' := by simpa using hx'.2
      exact hne (by rw [← h1, h2])
    · simp at hcl'
  · simp at hcl

/-- The fuzzy merge preserves pairwise disjointness of cluster members: it
only unions whole clusters, grouped by union-find root. -/
theorem merge_preserves_disjoint (clusters : List TCluster) (threshold : ℚ)
    (h : clusters.Pairwise (fun a b => ∀ x, x ∈ a.items → x ∉ b.items)) :
    (merge_similar_clusters clusters threshold).Pairwise
      (fun a b => ∀ x, x ∈ a.items → x ∉ b.items) := by
  unfold merge_similar_clusters
  split
  · exact h
  · dsimp only
    rw [List.pairwise_map]
    have hget : ∀ i j, i < clusters.length → j < clusters.length → i ≠ j →
        ∀ x, x ∈ (clusters.getD i default).items → x ∉ (clusters.getD j default).items := by
      intro i j hi hj hij
      rw [List.getD_eq_getElem _ _ hi, List.getD_eq_getElem _ _ hj]
      rcases Nat.lt_or_ge i j with hlt | hge
      · exact List.pairwise_iff_getElem.mp h i j hi hj hlt
      · have hlt' : j < i := by omega
        have hd := List.pairwise_iff_getElem.mp h j i hj hi hlt'
        exact fun x hxi hxj => hd x hxj hxi
    have hnd : (dedupKeys ((List.range clusters.length).map
        (fun i => findRoot (finalParent clusters threshold) clusters.length i))).Nodup :=
      dedupKeys_nodup _
    refine hnd.imp ?_
    intro r1 r2 hne x hx1 hx2
    dsimp only at hx1 hx2
    rcases List.mem_flatMap.mp hx1 with ⟨i, hi, hxi⟩
    rcases List.mem_flatMap.mp hx2 with ⟨j, hj, hxj⟩
    rcases List.mem_filter.mp hi with ⟨hirange, hiroot⟩
    rcases List.mem_filter.mp hj with ⟨hjrange, hjroot⟩
    have hiroot' : findRoot (finalParent clusters threshold) clusters.length i = r1 := by
      simpa using hiroot
    have hjroot' : findRoot (finalParent clusters threshold) clusters.length j = r2 := by
      simpa using hjroot
    have hij : i ≠ j := by
      intro hcontra
      exact hne (by rw [← hiroot', hcontra, hjroot'])
    exact hget i j (List.mem_range.mp hirange) (List.mem_range.mp hjrange) hij x hxi hxj

/-- C5 (confirmed): every returned cluster has at least 2 members, no item
appears in two different returned clusters, and the clusters are ordered by
non-increasing member count — in both the fuzzy-merge path (≤ 50 exact
clusters) and the exact-only path. -/
theorem c5_cluster_invariants (templates : List TItem) (threshold : ℚ) :
    (∀ c ∈ cluster_templates_similar templates threshold, 2 ≤ c.length) ∧
    (cluster_templates_similar templates threshold).Pairwise
      (fun c d => ∀ x, x ∈ c → x ∉ d) ∧
    (cluster_templates_similar templates threshold).Pairwise
      (fun c d => d.length ≤ c.length) := by
  unfold cluster_templates_similar
  split
  · exact ⟨by simp, by simp, by simp⟩
  · dsimp only
    split
    · exact ⟨by simp, by simp, by simp⟩
    · split
      · refine sorted_list_props _ ?_ ?_
        · intro c hc
          rcases List.mem_map.mp hc with ⟨cl, hclmem, rfl⟩
          have := (List.mem_filter.mp hclmem).2
          simpa using this
        · rw [List.pairwise_map]
          exact (merge_preserves_disjoint _ _ (cluster_list_pairwise _)).filter _
      · refine sorted_list_props _ ?_ ?_
        · intro c hc
          rcases List.mem_map.mp hc with ⟨cl, hclmem, rfl⟩
          exact cluster_list_mem_ge2 _ cl hclmem
        · rw [List.pairwise_map]
          exact cluster_list_pairwise _

/-! ## Loop lemmas for the incremental engine (claims C6–C8) -/

theorem incremental_step_empty (hashFn extractT : String → String) (f : Bool)
    (st : LoopState) (c : Chapter) (h : c.content = "") :
    incremental_step hashFn extractT f st c = st := by
  unfold incremental_step
  rw [if_pos h]

theorem refreshCacheRow_chapter_id (hashFn extractT : String → String) (c : Chapter)
    (e : ChapterPatternCache) :
    (refreshCacheRow hashFn extractT c e).chapter_id = e.chapter_id := rfl

theorem cacheFind_nil (cid : String) : cacheFind [] cid = none := rfl

theorem cacheFind_cons (e : ChapterPatternCache) (rest : List ChapterPatternCache)
    (cid : String) :
    cacheFind (e :: rest) cid =
      if e.chapter_id == cid then some e else cacheFind rest cid := by
  by_cases h : (e.chapter_id == cid) = true
  · rw [if_pos h]
    exact List.find?_cons_of_pos _ h
  · rw [if_neg h]
    exact List.find?_cons_of_neg _ (by simpa using h)

theorem cacheFind_updateFirstCache_self (store : List ChapterPatternCache) (cid : String)
    (f : ChapterPatternCache → ChapterPatternCache) (e : ChapterPatternCache)
    (h : cacheFind store cid = some e) (hf : ∀ x, (f x).chapter_id = x.chapter_id) :
    cacheFind (updateFirstCache store cid f) cid = some (f e) := by
  induction store with
  | nil => simp [cacheFind] at h
  | cons x rest ih =>
    rw [cacheFind_cons] at h
    by_cases hx : (x.chapter_id == cid) = true
    · rw [if_pos hx] at h
      have hex : x = e := Option.some.inj h
      unfold updateFirstCache
      rw [if_pos hx, cacheFind_cons]
      rw [if_pos (by rw [hf x]; exact hx)]
      rw [hex]
    · rw [if_neg hx] at h
      unfold updateFirstCache
      rw [if_neg hx, cacheFind_cons, if_neg hx]
      exact ih h

theorem cacheFind_updateFirstCache_ne (store : List ChapterPatternCache) (cid cid' : String)
    (f : ChapterPatternCache → ChapterPatternCache) (hne : cid' ≠ cid)
    (hf : ∀ x, (f x).chapter_id = x.chapter_id) :
    cacheFind (updateFirstCache store cid f) cid' = cacheFind store cid' := by
  induction store with
  | nil => rfl
  | cons x rest ih =>
    by_cases hx : (x.chapter_id == cid) = true
    · unfold updateFirstCache
      rw [if_pos hx, cacheFind_cons, cacheFind_cons]
      have hxcid : x.chapter_id = cid := by simpa using hx
      have hx' : ¬ (x.chapter_id == cid') = true := by
        simp only [hxcid, beq_iff_eq]
        exact fun h => hne h.symm
      have hfx' : ¬ ((f x).chapter_id == cid') = true := by
        rw [hf x]
        exact hx'
      rw [if_neg hx', if_neg hfx']
    · unfold updateFirstCache
      rw [if_neg hx, cacheFind_cons, cacheFind_cons]
      by_cases hx' : (x.chapter_id == cid') = true
      · rw [if_pos hx', if_pos hx']
      · rw [if_neg hx', if_neg hx']
        exact ih

theorem cacheFind_append_single (store : List ChapterPatternCache)
    (row : ChapterPatternCache) (cid : String) :
    cacheFind (store ++ [row]) cid =
      (match cacheFind store cid with
       | some e => some e
       | none => if row.chapter_id == cid then some row else none) := by
  induction store with
  | nil =>
    rw [List.nil_append, cacheFind_nil, cacheFind_cons, cacheFind_nil]
  | cons x rest ih =>
    rw [List.cons_append, cacheFind_cons, cacheFind_cons]
    by_cases h : (x.chapter_id == cid) = true
    · rw [if_pos h, if_pos h]
    · rw [if_neg h, if_neg h]
      exact ih

theorem incremental_step_valid (hashFn extractT : String → String) (st : LoopState)
    (c : Chapter) (e : ChapterPatternCache)
    (h1 : ¬ c.content = "") (h2 : cacheFind st.store c.id = some e)
    (h3 : e.content_hash = hashFn c.content) (h4 : e.analysis_version = ANALYSIS_VERSION) :
    incremental_step hashFn extractT false st c =
      { st with chapter_analyses := st.chapter_analyses ++ [analysis_from_cache c e],
                cached_count := st.cached_count + 1 } := by
  unfold incremental_step
  rw [if_neg h1]
  dsimp only
  rw [h2]
  dsimp only
  rw [if_pos ⟨by simp, h3, h4⟩]

theorem incremental_step_refresh_found (hashFn extractT : String → String) (st : LoopState)
    (c : Chapter) (e : ChapterPatternCache)
    (h1 : ¬ c.content = "") (h2 : cacheFind st.store c.id = some e)
    (h5 : ¬ (e.content_hash = hashFn c.content ∧ e.analysis_version = ANALYSIS_VERSION)) :
    incremental_step hashFn extractT false st c =
      { st with
        chapter_analyses := st.chapter_analyses ++
          [analyze_single_chapter extractT c.id c.chapter_number c.content c.title],
        store := updateFirstCache st.store c.id (refreshCacheRow hashFn extractT c),
        refreshed_count := st.refreshed_count + 1 } := by
  unfold incremental_step
  rw [if_neg h1]
  dsimp only
  rw [h2]
  dsimp only
  rw [if_neg (by rintro ⟨-, hh, hv⟩; exact h5 ⟨hh, hv⟩)]
  unfold get_or_create_chapter_cache
  dsimp only
  rw [h2]
  dsimp only
  rw [if_neg (by rintro ⟨hfr, -⟩; exact hfr (by simp))]

theorem incremental_step_refresh_new (hashFn extractT : String → String) (st : LoopState)
    (c : Chapter)
    (h1 : ¬ c.content = "") (h2 : cacheFind st.store c.id = none) :
    incremental_step hashFn extractT false st c =
      { st with
        chapter_analyses := st.chapter_analyses ++
          [analyze_single_chapter extractT c.id c.chapter_number c.content c.title],
        store := st.store ++ [newCacheRow hashFn extractT c],
        refreshed_count := st.refreshed_count + 1 } := by
  unfold incremental_step
  rw [if_neg h1]
  dsimp only
  rw [h2]
  dsimp only
  unfold get_or_create_chapter_cache
  dsimp only
  rw [h2]

theorem cache_valid_true_iff (hashFn : String → String) (store : List ChapterPatternCache)
    (c : Chapter) :
    cache_valid hashFn store c = true ↔
      ∃ e, cacheFind store c.id = some e ∧ e.content_hash = hashFn c.content ∧
        e.analysis_version = ANALYSIS_VERSION := by
  unfold cache_valid
  cases h : cacheFind store c.id with
  | none => simp
  | some e => simp [Bool.and_eq_true, beq_iff_eq]

theorem newCacheRow_chapter_id (hashFn extractT : String → String) (c : Chapter) :
    (newCacheRow hashFn extractT c).chapter_id = c.id := rfl

theorem incremental_step_widen (hashFn extractT : String → String) (st : LoopState)
    (c : Chapter) :
    incremental_step hashFn extractT false st c =
      { chapter_analyses := st.chapter_analyses ++
          (incremental_step hashFn extractT false ⟨[], st.store, 0, 0⟩ c).chapter_analyses,
        store := (incremental_step hashFn extractT false ⟨[], st.store, 0, 0⟩ c).store,
        cached_count := st.cached_count +
          (incremental_step hashFn extractT false ⟨[], st.store, 0, 0⟩ c).cached_count,
        refreshed_count := st.refreshed_count +
          (incremental_step hashFn extractT false ⟨[], st.store, 0, 0⟩ c).refreshed_count } := by
  by_cases h1 : c.content = ""
  · rw [incremental_step_empty _ _ _ _ _ h1, incremental_step_empty _ _ _ _ _ h1]
    cases st
    simp
  · cases h2 : cacheFind st.store c.id with
    | some e =>
      by_cases h5 : e.content_hash = hashFn c.content ∧ e.analysis_version = ANALYSIS_VERSION
      · rw [incremental_step_valid hashFn extractT st c e h1 h2 h5.1 h5.2,
            incremental_step_valid hashFn extractT ⟨[], st.store, 0, 0⟩ c e h1 h2 h5.1 h5.2]
        simp
      · rw [incremental_step_refresh_found hashFn extractT st c e h1 h2 h5,
            incremental_step_refresh_found hashFn extractT ⟨[], st.store, 0, 0⟩ c e h1 h2 h5]
        simp
    | none =>
      rw [incremental_step_refresh_new hashFn extractT st c h1 h2,
          incremental_step_refresh_new hashFn extractT ⟨[], st.store, 0, 0⟩ c h1 h2]
      simp

theorem chapter_loop_nil (hashFn extractT : String → String) (f : Bool) (st : LoopState) :
    chapter_loop hashFn extractT f [] st = st := rfl

theorem chapter_loop_cons (hashFn extractT : String → String) (f : Bool) (c : Chapter)
    (cs : List Chapter) (st : LoopState) :
    chapter_loop hashFn extractT f (c :: cs) st =
      chapter_loop hashFn extractT f cs (incremental_step hashFn extractT f st c) := rfl

theorem incremental_step_find_other (hashFn extractT : String → String) (st : LoopState)
    (c : Chapter) (cid : String) (hne : ¬ c.id = cid) :
    cacheFind (incremental_step hashFn extractT false st c).store cid =
      cacheFind st.store cid := by
  by_cases h1 : c.content = ""
  · rw [incremental_step_empty _ _ _ _ _ h1]
  · cases h2 : cacheFind st.store c.id with
    | some e =>
      by_cases h5 : e.content_hash = hashFn c.content ∧ e.analysis_version = ANALYSIS_VERSION
      · rw [incremental_step_valid hashFn extractT st c e h1 h2 h5.1 h5.2]
      · rw [incremental_step_refresh_found hashFn extractT st c e h1 h2 h5]
        exact cacheFind_updateFirstCache_ne st.store c.id cid _ (fun h => hne h.symm)
          (fun x => rfl)
    | none =>
      rw [incremental_step_refresh_new hashFn extractT st c h1 h2]
      rw [cacheFind_append_single]
      cases h3 : cacheFind st.store cid with
      | some e0 => rfl
      | none =>
        dsimp only
        rw [newCacheRow_chapter_id]
        rw [if_neg (by simpa using hne)]

theorem chapter_loop_find_frame (hashFn extractT : String → String)
    (chapters : List Chapter) :
    ∀ (st : LoopState) (cid : String), (∀ c ∈ chapters, ¬ c.id = cid) →
    cacheFind (chapter_loop hashFn extractT false chapters st).store cid =
      cacheFind st.store cid := by
  induction chapters with
  | nil => intro st cid _; rfl
  | cons c cs ih =>
    intro st cid h
    rw [chapter_loop_cons]
    rw [ih _ cid (fun x hx => h x (List.mem_cons_of_mem _ hx))]
    exact incremental_step_find_other hashFn extractT st c cid (h c (List.mem_cons_self _ _))

theorem incremental_step_counts (hashFn extractT : String → String) (st : LoopState)
    (c : Chapter) :
    (incremental_step hashFn extractT false st c).cached_count +
        (incremental_step hashFn extractT false st c).refreshed_count =
      st.cached_count + st.refreshed_count + (if c.content = "" then 0 else 1) := by
  by_cases h1 : c.content = ""
  · rw [incremental_step_empty _ _ _ _ _ h1, if_pos h1]
    omega
  · rw [if_neg h1]
    cases h2 : cacheFind st.store c.id with
    | some e =>
      by_cases h5 : e.content_hash = hashFn c.content ∧ e.analysis_version = ANALYSIS_VERSION
      · rw [incremental_step_valid hashFn extractT st c e h1 h2 h5.1 h5.2]
        dsimp only
        omega
      · rw [incremental_step_refresh_found hashFn extractT st c e h1 h2 h5]
        dsimp only
        omega
    | none =>
      rw [incremental_step_refresh_new hashFn extractT st c h1 h2]
      dsimp only
      omega

theorem incremental_step_analyses_length (hashFn extractT : String → String) (st : LoopState)
    (c : Chapter) :
    (incremental_step hashFn extractT false st c).chapter_analyses.length =
      st.chapter_analyses.length + (if c.content = "" then 0 else 1) := by
  by_cases h1 : c.content = ""
  · rw [incremental_step_empty _ _ _ _ _ h1, if_pos h1]
    omega
  · rw [if_neg h1]
    cases h2 : cacheFind st.store c.id with
    | some e =>
      by_cases h5 : e.content_hash = hashFn c.content ∧ e.analysis_version = ANALYSIS_VERSION
      · rw [incremental_step_valid hashFn extractT st c e h1 h2 h5.1 h5.2]
        simp
      · rw [incremental_step_refresh_found hashFn extractT st c e h1 h2 h5]
        simp
    | none =>
      rw [incremental_step_refresh_new hashFn extractT st c h1 h2]
      simp

theorem processed_count_nil : processed_count [] = 0 := rfl

theorem processed_count_cons (c : Chapter) (cs : List Chapter) :
    processed_count (c :: cs) =
      (if c.content = "" then 0 else 1) + processed_count cs := by
  unfold processed_count
  by_cases h : c.content = ""
  · rw [if_pos h, List.filter_cons_of_neg (by simpa using h)]
    omega
  · rw [if_neg h, List.filter_cons_of_pos (by simpa using h)]
    simp [Nat.add_comm]

theorem chapter_loop_counts (hashFn extractT : String → String) (chapters : List Chapter) :
    ∀ st : LoopState,
    (chapter_loop hashFn extractT false chapters st).cached_count +
        (chapter_loop hashFn extractT false chapters st).refreshed_count =
      st.cached_count + st.refreshed_count + processed_count chapters := by
  induction chapters with
  | nil =>
    intro st
    rw [chapter_loop_nil, processed_count_nil]
    omega
  | cons c cs ih =>
    intro st
    rw [chapter_loop_cons, processed_count_cons, ih]
    rw [incremental_step_counts]
    omega

theorem chapter_loop_analyses_length (hashFn extractT : String → String)
    (chapters : List Chapter) :
    ∀ st : LoopState,
    (chapter_loop hashFn extractT false chapters st).chapter_analyses.length =
      st.chapter_analyses.length + processed_count chapters := by
  induction chapters with
  | nil =>
    intro st
    rw [chapter_loop_nil, processed_count_nil]
    omega
  | cons c cs ih =>
    intro st
    rw [chapter_loop_cons, processed_count_cons, ih]
    rw [incremental_step_analyses_length]
    omega

theorem chapter_loop_filter_nonempty (hashFn extractT : String → String)
    (chapters : List Chapter) :
    ∀ st : LoopState,
    chapter_loop hashFn extractT false chapters st =
      chapter_loop hashFn extractT false
        (chapters.filter (fun c => ¬ c.content = "")) st := by
  induction chapters with
  | nil => intro st; rfl
  | cons c cs ih =>
    intro st
    by_cases h : c.content = ""
    · rw [chapter_loop_cons, List.filter_cons_of_neg (by simpa using h),
          incremental_step_empty _ _ _ _ _ h, ih]
    · rw [chapter_loop_cons, List.filter_cons_of_pos (by simpa using h),
          chapter_loop_cons, ih]

theorem analysis_from_cache_refresh (hashFn extractT : String → String) (c : Chapter)
    (e : ChapterPatternCache) (h : ¬ c.content = "") :
    analysis_from_cache c (refreshCacheRow hashFn extractT c e) =
      analyze_single_chapter extractT c.id c.chapter_number c.content c.title := by
  unfold analysis_from_cache refreshCacheRow analyze_single_chapter
  rw [if_neg h]

theorem analysis_from_cache_new (hashFn extractT : String → String) (c : Chapter)
    (h : ¬ c.content = "") :
    analysis_from_cache c (newCacheRow hashFn extractT c) =
      analyze_single_chapter extractT c.id c.chapter_number c.content c.title := by
  unfold analysis_from_cache newCacheRow analyze_single_chapter
  rw [if_neg h]

theorem incremental_step_establishes (hashFn extractT : String → String) (st : LoopState)
    (c : Chapter) (h1 : ¬ c.content = "") :
    ∃ ec, cacheFind (incremental_step hashFn extractT false st c).store c.id = some ec ∧
      ec.content_hash = hashFn c.content ∧ ec.analysis_version = ANALYSIS_VERSION ∧
      (incremental_step hashFn extractT false st c).chapter_analyses =
        st.chapter_analyses ++ [analysis_from_cache c ec] := by
  cases h2 : cacheFind st.store c.id with
  | some e =>
    by_cases h5 : e.content_hash = hashFn c.content ∧ e.analysis_version = ANALYSIS_VERSION
    · refine ⟨e, ?_, h5.1, h5.2, ?_⟩
      · rw [incremental_step_valid hashFn extractT st c e h1 h2 h5.1 h5.2]
        exact h2
      · rw [incremental_step_valid hashFn extractT st c e h1 h2 h5.1 h5.2]
    · refine ⟨refreshCacheRow hashFn extractT c e, ?_, rfl, rfl, ?_⟩
      · rw [incremental_step_refresh_found hashFn extractT st c e h1 h2 h5]
        exact cacheFind_updateFirstCache_self st.store c.id _ e h2 (fun x => rfl)
      · rw [incremental_step_refresh_found hashFn extractT st c e h1 h2 h5]
        rw [analysis_from_cache_refresh hashFn extractT c e h1]
  | none =>
    refine ⟨newCacheRow hashFn extractT c, ?_, rfl, rfl, ?_⟩
    · rw [incremental_step_refresh_new hashFn extractT st c h1 h2]
      rw [cacheFind_append_single, h2]
      dsimp only
      rw [newCacheRow_chapter_id]
      rw [if_pos (by simp)]
    · rw [incremental_step_refresh_new hashFn extractT st c h1 h2]
      rw [analysis_from_cache_new hashFn extractT c h1]

theorem chapter_loop_all_valid (hashFn extractT : String → String)
    (chapters : List Chapter) :
    ∀ (st : LoopState) (a : Chapter → ChapterAnalysis),
      (∀ c ∈ chapters, ¬ c.content = "" → ∃ ec, cacheFind st.store c.id = some ec ∧
        ec.content_hash = hashFn c.content ∧ ec.analysis_version = ANALYSIS_VERSION ∧
        analysis_from_cache c ec = a c) →
      chapter_loop hashFn extractT false chapters st =
        ⟨st.chapter_analyses ++ (chapters.filter (fun c => ¬ c.content = "")).map a,
         st.store, st.cached_count + processed_count chapters, st.refreshed_count⟩ := by
  induction chapters with
  | nil =>
    intro st a _
    rw [chapter_loop_nil, processed_count_nil]
    cases st
    simp
  | cons c cs ih =>
    intro st a h
    rw [chapter_loop_cons, processed_count_cons]
    by_cases h1 : c.content = ""
    · rw [incremental_step_empty _ _ _ _ _ h1, if_pos h1,
          List.filter_cons_of_neg (by simpa using h1)]
      rw [ih st a (fun x hx hxne => h x (List.mem_cons_of_mem _ hx) hxne)]
      simp
    · obtain ⟨ec, hfind, hh, hv, ha⟩ := h c (List.mem_cons_self _ _) h1
      rw [incremental_step_valid hashFn extractT st c ec h1 hfind hh hv]
      rw [List.filter_cons_of_pos (by simpa using h1), if_neg h1]
      have hrec := ih
        { st with chapter_analyses := st.chapter_analyses ++ [analysis_from_cache c ec],
                  cached_count := st.cached_count + 1 } a
        (fun x hx hxne => h x (List.mem_cons_of_mem _ hx) hxne)
      rw [hrec, ha]
      simp [List.append_assoc, Nat.add_assoc]

theorem chapter_loop_establishes (hashFn extractT : String → String)
    (chapters : List Chapter) :
    ∀ st : LoopState, (chapters.map (fun c => c.id)).Nodup →
      ∃ a : Chapter → ChapterAnalysis,
        (chapter_loop hashFn extractT false chapters st).chapter_analyses =
          st.chapter_analyses ++ (chapters.filter (fun c => ¬ c.content = "")).map a ∧
        ∀ c ∈ chapters, ¬ c.content = "" →
          ∃ ec, cacheFind (chapter_loop hashFn extractT false chapters st).store c.id = some ec ∧
            ec.content_hash = hashFn c.content ∧ ec.analysis_version = ANALYSIS_VERSION ∧
            analysis_from_cache c ec = a c := by
  induction chapters with
  | nil =>
    intro st _
    exact ⟨fun _ => default, by simp [chapter_loop_nil], by simp⟩
  | cons c cs ih =>
    intro st hnd
    rw [List.map_cons] at hnd
    have hcid : c.id ∉ cs.map (fun x => x.id) := (List.nodup_cons.mp hnd).1
    have hnd' : (cs.map (fun x => x.id)).Nodup := (List.nodup_cons.mp hnd).2
    by_cases h1 : c.content = ""
    · obtain ⟨a, ha1, ha2⟩ := ih (incremental_step hashFn extractT false st c) hnd'
      rw [incremental_step_empty hashFn extractT false st c h1] at ha1 ha2
      refine ⟨a, ?_, ?_⟩
      · rw [chapter_loop_cons, incremental_step_empty hashFn extractT false st c h1,
            List.filter_cons_of_neg (by simpa using h1)]
        exact ha1
      · intro x hx hxne
        rcases List.mem_cons.mp hx with hxc | hxcs
        · exact absurd h1 (hxc ▸ hxne)
        · rw [chapter_loop_cons, incremental_step_empty hashFn extractT false st c h1]
          exact ha2 x hxcs hxne
    · obtain ⟨ec0, hfind0, hh0, hv0, hana0⟩ :=
        incremental_step_establishes hashFn extractT st c h1
      obtain ⟨a, ha1, ha2⟩ := ih (incremental_step hashFn extractT false st c) hnd'
      refine ⟨fun x => if x.id = c.id then analysis_from_cache c ec0 else a x, ?_, ?_⟩
      · rw [chapter_loop_cons, List.filter_cons_of_pos (by simpa using h1)]
        rw [ha1, hana0]
        rw [List.map_cons]
        rw [if_pos rfl]
        have hmapeq : (cs.filter (fun x => ¬ x.content = "")).map
            (fun x => if x.id = c.id then analysis_from_cache c ec0 else a x) =
            (cs.filter (fun x => ¬ x.content = "")).map a := by
          apply List.map_congr_left
          intro x hxf
          have hxcs : x ∈ cs := List.mem_of_mem_filter hxf
          have hmem : x.id ∈ cs.map (fun y => y.id) := List.mem_map_of_mem _ hxcs
          have hne : ¬ x.id = c.id := fun he => hcid (he ▸ hmem)
          rw [if_neg hne]
        rw [hmapeq]
        simp [List.append_assoc]
      · intro x hx hxne
        rcases List.mem_cons.mp hx with hxc | hxcs
        · subst hxc
          refine ⟨ec0, ?_, hh0, hv0, by simp⟩
          rw [chapter_loop_cons]
          rw [chapter_loop_find_frame hashFn extractT cs _ x.id ?_]
          · exact hfind0
          · intro y hy
            have hmem : y.id ∈ cs.map (fun z => z.id) := List.mem_map_of_mem _ hy
            exact fun he => hcid (he ▸ hmem)
        · obtain ⟨ec, hf, hh, hv, ha⟩ := ha2 x hxcs hxne
          refine ⟨ec, ?_, hh, hv, ?_⟩
          · rw [chapter_loop_cons]
            exact hf
          · have hmem : x.id ∈ cs.map (fun y => y.id) := List.mem_map_of_mem _ hxcs
            have hne : ¬ x.id = c.id := fun he => hcid (he ▸ hmem)
            show analysis_from_cache x ec =
              if x.id = c.id then analysis_from_cache c ec0 else a x
            rw [if_neg hne]
            exact ha

/-- C6: re-running `analyze_project_patterns_incremental` unchanged reuses every
cache row: the second run returns the same dict except that its
`incremental_stats` reports every processed chapter as cached and none as
refreshed, and it leaves the cache table exactly as the first run left it.
(The spec's claim that the second run returns *the identical dict* fails on
the `incremental_stats` entry.) -/
theorem c6_second_run_all_cached (hashFn extractT : String → String)
    (chapters : List Chapter) (store : List ChapterPatternCache) (min_chapters : Nat)
    (hnd : (chapters.map (fun c => c.id)).Nodup) :
    analyze_project_patterns_incremental hashFn extractT chapters
        (analyze_project_patterns_incremental hashFn extractT chapters store
          min_chapters false).2 min_chapters false =
      ((analyze_project_patterns_incremental hashFn extractT chapters store
          min_chapters false).1.withStats ⟨processed_count chapters, 0⟩,
       (analyze_project_patterns_incremental hashFn extractT chapters store
          min_chapters false).2) := by
  by_cases hlt : chapters.length < min_chapters
  · unfold analyze_project_patterns_incremental
    rw [if_pos hlt]
    dsimp only
    rw [if_pos hlt]
    rfl
  · obtain ⟨a, hana, hval⟩ := chapter_loop_establishes hashFn extractT chapters
      ⟨[], store, 0, 0⟩ hnd
    have hloop2 := chapter_loop_all_valid hashFn extractT chapters
      ⟨[], (chapter_loop hashFn extractT false chapters ⟨[], store, 0, 0⟩).store, 0, 0⟩ a
      (fun c hc hne => hval c hc hne)
    unfold analyze_project_patterns_incremental
    rw [if_neg hlt]
    rw [if_neg hlt]
    dsimp only
    by_cases hempty :
        (chapter_loop hashFn extractT false chapters ⟨[], store, 0, 0⟩).chapter_analyses = []
    · rw [if_pos hempty]
      dsimp only
      rw [hloop2]
      have hnil : (chapters.filter (fun c => ¬ c.content = "")).map a = [] := by
        rw [hana] at hempty
        simpa using hempty
      dsimp only [List.nil_append]
      rw [if_pos hnil]
      rfl
    · rw [if_neg hempty]
      dsimp only
      rw [hloop2]
      have hne2 : ¬ (chapters.filter (fun c => ¬ c.content = "")).map a = [] := by
        intro hnil
        exact hempty (by rw [hana, hnil]; simp)
      dsimp only [List.nil_append]
      rw [if_neg hne2]
      have hana2 : (chapters.filter (fun c => ¬ c.content = "")).map a =
          (chapter_loop hashFn extractT false chapters ⟨[], store, 0, 0⟩).chapter_analyses := by
        rw [hana]
        simp
      rw [hana2]
      simp [AnalysisOutcome.withStats]

/-- Witness for C6 at a concrete five-chapter project with an empty cache. -/
theorem c6_second_run_all_cached_witness :
    (List.map (fun c => c.id) exampleChapters).Nodup ∧
    analyze_project_patterns_incremental id extract_template_simple_impl exampleChapters
        (analyze_project_patterns_incremental id extract_template_simple_impl exampleChapters
          [] 3 false).2 3 false =
      ((analyze_project_patterns_incremental id extract_template_simple_impl exampleChapters
          [] 3 false).1.withStats ⟨processed_count exampleChapters, 0⟩,
       (analyze_project_patterns_incremental id extract_template_simple_impl exampleChapters
          [] 3 false).2) :=
  ⟨by decide, c6_second_run_all_cached id extract_template_simple_impl exampleChapters [] 3
    (by decide)⟩

/-- Counterexample to the literal C6 claim: the second run's dict is not
identical to the first run's, because `incremental_stats` flips from
5 refreshed / 0 cached to 0 refreshed / 5 cached. -/
theorem c6_counterexample :
    (analyze_project_patterns_incremental id extract_template_simple_impl exampleChapters
        [] 3 false).1.stats? = some ⟨0, 5⟩ ∧
    (analyze_project_patterns_incremental id extract_template_simple_impl exampleChapters
        (analyze_project_patterns_incremental id extract_template_simple_impl exampleChapters
          [] 3 false).2 3 false).1.stats? = some ⟨5, 0⟩ ∧
    ¬ (analyze_project_patterns_incremental id extract_template_simple_impl exampleChapters
        (analyze_project_patterns_incremental id extract_template_simple_impl exampleChapters
          [] 3 false).2 3 false).1 =
      (analyze_project_patterns_incremental id extract_template_simple_impl exampleChapters
        [] 3 false).1 := by
  refine ⟨rfl, rfl, fun h => ?_⟩
  have h2 := congrArg AnalysisOutcome.stats? h
  rw [show (analyze_project_patterns_incremental id extract_template_simple_impl exampleChapters
        (analyze_project_patterns_incremental id extract_template_simple_impl exampleChapters
          [] 3 false).2 3 false).1.stats? = some ⟨5, 0⟩ from rfl,
      show (analyze_project_patterns_incremental id extract_template_simple_impl exampleChapters
        [] 3 false).1.stats? = some ⟨0, 5⟩ from rfl] at h2
  exact absurd h2 (by decide)

/-- C7: the incremental entry point has no per-chapter error collection: on
the success path it returns exactly the aggregate dict (no `errors` entry),
`chapters_analyzed` counts every chapter of the project — including empty
ones the loop silently skipped — while the incremental bookkeeping only sums
to the processed (non-empty) chapters, and the loop over all chapters equals
the loop over the non-empty ones. -/
theorem c7_no_error_collection (hashFn extractT : String → String)
    (chapters : List Chapter) (store : List ChapterPatternCache) (min_chapters : Nat)
    (hmin : ¬ chapters.length < min_chapters)
    (hne : ¬ (chapter_loop hashFn extractT false chapters
        ⟨[], store, 0, 0⟩).chapter_analyses = []) :
    analyze_project_patterns_incremental hashFn extractT chapters store min_chapters false =
      (.success
        (incremental_aggregate chapters.length
          (chapter_loop hashFn extractT false chapters ⟨[], store, 0, 0⟩).chapter_analyses)
        ⟨(chapter_loop hashFn extractT false chapters ⟨[], store, 0, 0⟩).cached_count,
         (chapter_loop hashFn extractT false chapters ⟨[], store, 0, 0⟩).refreshed_count⟩,
       (chapter_loop hashFn extractT false chapters ⟨[], store, 0, 0⟩).store) ∧
    (incremental_aggregate chapters.length
        (chapter_loop hashFn extractT false chapters
          ⟨[], store, 0, 0⟩).chapter_analyses).chapters_analyzed = chapters.length ∧
    (chapter_loop hashFn extractT false chapters ⟨[], store, 0, 0⟩).cached_count +
        (chapter_loop hashFn extractT false chapters ⟨[], store, 0, 0⟩).refreshed_count =
      processed_count chapters ∧
    chapter_loop hashFn extractT false chapters ⟨[], store, 0, 0⟩ =
      chapter_loop hashFn extractT false (chapters.filter (fun c => ¬ c.content = ""))
        ⟨[], store, 0, 0⟩ := by
  refine ⟨?_, ?_, ?_, ?_⟩
  · unfold analyze_project_patterns_incremental
    rw [if_neg hmin]
    dsimp only
    rw [if_neg hne]
  · rfl
  · have h := chapter_loop_counts hashFn extractT chapters ⟨[], store, 0, 0⟩
    simpa using h
  · exact chapter_loop_filter_nonempty hashFn extractT chapters ⟨[], store, 0, 0⟩

/-- Witness for C7: five chapters, one of them empty, with an empty cache. -/
theorem c7_no_error_collection_witness :
    (¬ exampleChaptersEmpty3.length < 3) ∧
    (incremental_aggregate exampleChaptersEmpty3.length
        (chapter_loop id extract_template_simple_impl false exampleChaptersEmpty3
          ⟨[], [], 0, 0⟩).chapter_analyses).chapters_analyzed =
      exampleChaptersEmpty3.length :=
  ⟨by decide, (c7_no_error_collection id extract_template_simple_impl exampleChaptersEmpty3
      [] 3 (by decide) (by decide)).2.1⟩

/-- Counterexample to the literal C7 claim: with one empty chapter out of
five there is no error report, `chapters_analyzed` still says 5 although only
4 chapters were processed, and the incremental stats account for 4 chapters. -/
theorem c7_counterexample :
    (analyze_project_patterns_incremental id extract_template_simple_impl exampleChaptersEmpty3
        [] 3 false).1.core?.map (fun core => core.chapters_analyzed) = some 5 ∧
    processed_count exampleChaptersEmpty3 = 4 ∧
    (analyze_project_patterns_incremental id extract_template_simple_impl exampleChaptersEmpty3
        [] 3 false).1.stats? = some ⟨0, 4⟩ :=
  ⟨rfl, rfl, rfl⟩

theorem cache_valid_congr (hashFn : String → String) (S T : List ChapterPatternCache)
    (x : Chapter) (h : cacheFind T x.id = cacheFind S x.id) :
    cache_valid hashFn T x = cache_valid hashFn S x := by
  unfold cache_valid
  rw [h]

theorem chapter_loop_all_valid_state (hashFn extractT : String → String)
    (cs : List Chapter) :
    ∀ st : LoopState, (∀ x ∈ cs, ¬ x.content = "" → cache_valid hashFn st.store x = true) →
      (chapter_loop hashFn extractT false cs st).store = st.store ∧
      (chapter_loop hashFn extractT false cs st).cached_count =
        st.cached_count + processed_count cs ∧
      (chapter_loop hashFn extractT false cs st).refreshed_count = st.refreshed_count := by
  induction cs with
  | nil =>
    intro st _
    refine ⟨rfl, ?_, rfl⟩
    rw [chapter_loop_nil, processed_count_nil]
    omega
  | cons c cs ih =>
    intro st h
    by_cases h1 : c.content = ""
    · rw [chapter_loop_cons, incremental_step_empty _ _ _ _ _ h1]
      obtain ⟨hs, hc2, hr⟩ := ih st (fun x hx => h x (List.mem_cons_of_mem _ hx))
      refine ⟨hs, ?_, hr⟩
      rw [hc2, processed_count_cons, if_pos h1]
      omega
    · have hv := h c (List.mem_cons_self _ _) h1
      obtain ⟨e, hfind, hh, hver⟩ := (cache_valid_true_iff hashFn st.store c).mp hv
      rw [chapter_loop_cons, incremental_step_valid hashFn extractT st c e h1 hfind hh hver]
      obtain ⟨hs, hc2, hr⟩ :=
        ih { st with chapter_analyses := st.chapter_analyses ++ [analysis_from_cache c e],
                     cached_count := st.cached_count + 1 }
          (fun x hx hxne => h x (List.mem_cons_of_mem _ hx) hxne)
      refine ⟨hs, ?_, hr⟩
      rw [hc2, processed_count_cons, if_neg h1]
      dsimp only
      omega

theorem chapter_loop_one_stale (hashFn extractT : String → String)
    (chapters : List Chapter) :
    ∀ (st : LoopState) (ck : Chapter),
      (chapters.map (fun c => c.id)).Nodup → ck ∈ chapters → ¬ ck.content = "" →
      (∀ x ∈ chapters, ¬ x.content = "" → ¬ x.id = ck.id →
        cache_valid hashFn st.store x = true) →
      cache_valid hashFn st.store ck = false →
      (∃ e, cacheFind st.store ck.id = some e) →
      (chapter_loop hashFn extractT false chapters st).store =
          updateFirstCache st.store ck.id (refreshCacheRow hashFn extractT ck) ∧
      (chapter_loop hashFn extractT false chapters st).cached_count =
        st.cached_count + (processed_count chapters - 1) ∧
      (chapter_loop hashFn extractT false chapters st).refreshed_count =
        st.refreshed_count + 1 := by
  induction chapters with
  | nil =>
    intro st ck _ hmem
    exact absurd hmem (List.not_mem_nil _)
  | cons c cs ih =>
    intro st ck hnd hmem hckne hsib hstale hex
    obtain ⟨e0, hfind0⟩ := hex
    rw [List.map_cons] at hnd
    have hcid : c.id ∉ cs.map (fun x => x.id) := (List.nodup_cons.mp hnd).1
    have hnd' : (cs.map (fun x => x.id)).Nodup := (List.nodup_cons.mp hnd).2
    by_cases hcids : c.id = ck.id
    · have hckc : ck = c := by
        rcases List.mem_cons.mp hmem with h | h
        · exact h
        · have hmm : ck.id ∈ cs.map (fun x => x.id) := List.mem_map_of_mem _ h
          rw [← hcids] at hmm
          exact absurd hmm hcid
      subst hckc
      have hinv : ¬ (e0.content_hash = hashFn ck.content ∧
          e0.analysis_version = ANALYSIS_VERSION) := by
        intro hco
        have hv : cache_valid hashFn st.store ck = true :=
          (cache_valid_true_iff hashFn st.store ck).mpr ⟨e0, hfind0, hco.1, hco.2⟩
        exact absurd (hv.symm.trans hstale) (by decide)
      rw [chapter_loop_cons,
          incremental_step_refresh_found hashFn extractT st ck e0 hckne hfind0 hinv]
      have hvalids : ∀ x ∈ cs, ¬ x.content = "" →
          cache_valid hashFn
            (updateFirstCache st.store ck.id (refreshCacheRow hashFn extractT ck)) x =
            true := by
        intro x hx hxne
        have hmemx : x.id ∈ cs.map (fun y => y.id) := List.mem_map_of_mem _ hx
        have hxid : ¬ x.id = ck.id := fun he => hcid (he ▸ hmemx)
        rw [cache_valid_congr hashFn st.store
          (updateFirstCache st.store ck.id (refreshCacheRow hashFn extractT ck)) x
          (cacheFind_updateFirstCache_ne st.store ck.id x.id
            (refreshCacheRow hashFn extractT ck) hxid (fun y => rfl))]
        exact hsib x (List.mem_cons_of_mem _ hx) hxne hxid
      obtain ⟨hs, hc2, hr⟩ := chapter_loop_all_valid_state hashFn extractT cs
        { st with
          chapter_analyses := st.chapter_analyses ++
            [analyze_single_chapter extractT ck.id ck.chapter_number ck.content ck.title],
          store := updateFirstCache st.store ck.id (refreshCacheRow hashFn extractT ck),
          refreshed_count := st.refreshed_count + 1 }
        hvalids
      refine ⟨hs, ?_, hr⟩
      rw [hc2, processed_count_cons, if_neg hckne]
      dsimp only
      omega
    · have hckcs : ck ∈ cs := by
        rcases List.mem_cons.mp hmem with h | h
        · exact absurd (congrArg (fun x => x.id) h.symm) hcids
        · exact h
      by_cases h1 : c.content = ""
      · rw [chapter_loop_cons, incremental_step_empty _ _ _ _ _ h1]
        obtain ⟨hs, hc2, hr⟩ := ih st ck hnd' hckcs hckne
          (fun x hx => hsib x (List.mem_cons_of_mem _ hx)) hstale ⟨e0, hfind0⟩
        refine ⟨hs, ?_, hr⟩
        rw [hc2, processed_count_cons, if_pos h1]
        omega
      · have hxvalid : cache_valid hashFn st.store c = true :=
          hsib c (List.mem_cons_self _ _) h1 hcids
        obtain ⟨e, hfind, hh, hver⟩ := (cache_valid_true_iff hashFn st.store c).mp hxvalid
        rw [chapter_loop_cons, incremental_step_valid hashFn extractT st c e h1 hfind hh hver]
        obtain ⟨hs, hc2, hr⟩ := ih
          { st with chapter_analyses := st.chapter_analyses ++ [analysis_from_cache c e],
                    cached_count := st.cached_count + 1 }
          ck hnd' hckcs hckne
          (fun x hx hxne hxid => hsib x (List.mem_cons_of_mem _ hx) hxne hxid)
          hstale ⟨e0, hfind0⟩
        refine ⟨hs, ?_, hr⟩
        have hpos : 1 ≤ processed_count cs := by
          have hmf : ck ∈ cs.filter (fun x => ¬ x.content = "") :=
            List.mem_filter.mpr ⟨hckcs, by simpa using hckne⟩
          exact List.length_pos_of_mem hmf
        rw [hc2, processed_count_cons, if_neg h1]
        dsimp only
        omega

/-- C8: targeted cache invalidation. If exactly one non-empty chapter `ck`
has a stale cache row (hash or version mismatch) while every other processed
chapter's row is valid, then — given the project passes the minimum-chapter
gate — the run rewrites only `ck`'s row in place through
`get_or_create_chapter_cache(force_refresh=True)` (new hash, current
version), leaves every other row untouched, and reports all other processed
chapters as cached and exactly one as refreshed. -/
theorem c8_targeted_invalidation (hashFn extractT : String → String)
    (chapters : List Chapter) (store : List ChapterPatternCache) (min_chapters : Nat)
    (ck : Chapter)
    (hnd : (chapters.map (fun c => c.id)).Nodup)
    (hmin : ¬ chapters.length < min_chapters)
    (hmem : ck ∈ chapters) (hckne : ¬ ck.content = "")
    (hsib : ∀ x ∈ chapters, ¬ x.content = "" → ¬ x.id = ck.id →
      cache_valid hashFn store x = true)
    (hstale : cache_valid hashFn store ck = false)
    (hex : ∃ e, cacheFind store ck.id = some e) :
    (analyze_project_patterns_incremental hashFn extractT chapters store
        min_chapters false).2 =
      updateFirstCache store ck.id (refreshCacheRow hashFn extractT ck) ∧
    (analyze_project_patterns_incremental hashFn extractT chapters store
        min_chapters false).1.stats? = some ⟨processed_count chapters - 1, 1⟩ ∧
    (∀ cid, ¬ cid = ck.id →
      cacheFind (analyze_project_patterns_incremental hashFn extractT chapters store
        min_chapters false).2 cid = cacheFind store cid) ∧
    (∃ e, cacheFind store ck.id = some e ∧
      cacheFind (analyze_project_patterns_incremental hashFn extractT chapters store
          min_chapters false).2 ck.id = some (refreshCacheRow hashFn extractT ck e) ∧
      (refreshCacheRow hashFn extractT ck e).content_hash = hashFn ck.content ∧
      (refreshCacheRow hashFn extractT ck e).analysis_version = ANALYSIS_VERSION) := by
  obtain ⟨hs, hc2, hr⟩ := chapter_loop_one_stale hashFn extractT chapters
    ⟨[], store, 0, 0⟩ ck hnd hmem hckne hsib hstale hex
  have hpos : 1 ≤ processed_count chapters :=
    List.length_pos_of_mem (List.mem_filter.mpr ⟨hmem, by simpa using hckne⟩)
  have hlen := chapter_loop_analyses_length hashFn extractT chapters ⟨[], store, 0, 0⟩
  have hnonnil : ¬ (chapter_loop hashFn extractT false chapters
      ⟨[], store, 0, 0⟩).chapter_analyses = [] := by
    intro hnil
    rw [hnil] at hlen
    simp at hlen
    omega
  have hrun : analyze_project_patterns_incremental hashFn extractT chapters store
      min_chapters false =
      (.success
        (incremental_aggregate chapters.length
          (chapter_loop hashFn extractT false chapters ⟨[], store, 0, 0⟩).chapter_analyses)
        ⟨(chapter_loop hashFn extractT false chapters ⟨[], store, 0, 0⟩).cached_count,
         (chapter_loop hashFn extractT false chapters ⟨[], store, 0, 0⟩).refreshed_count⟩,
       (chapter_loop hashFn extractT false chapters ⟨[], store, 0, 0⟩).store) := by
    unfold analyze_project_patterns_incremental
    rw [if_neg hmin]
    dsimp only
    rw [if_neg hnonnil]
  rw [hrun]
  dsimp only [AnalysisOutcome.stats?]
  refine ⟨hs, ?_, ?_, ?_⟩
  · rw [hc2, hr]
    dsimp only
    simp
  · intro cid hcid
    rw [hs]
    exact cacheFind_updateFirstCache_ne store ck.id cid
      (refreshCacheRow hashFn extractT ck) hcid (fun y => rfl)
  · obtain ⟨e, hfind⟩ := hex
    refine ⟨e, hfind, ?_, rfl, rfl⟩
    rw [hs]
    exact cacheFind_updateFirstCache_self store ck.id
      (refreshCacheRow hashFn extractT ck) e hfind (fun y => rfl)

/-- Witness for C8: chapter 3 of the example project was edited, so only its
cache row is stale; the run refreshes exactly that row and reuses the rest. -/
theorem c8_targeted_invalidation_witness :
    cache_valid id exampleStore (exampleChapter 3 "他推开门走了进去。他愣住了。") = false ∧
    (analyze_project_patterns_incremental id extract_template_simple_impl
        exampleChaptersChanged3 exampleStore 3 false).2 =
      updateFirstCache exampleStore (exampleChapter 3 "他推开门走了进去。他愣住了。").id
        (refreshCacheRow id extract_template_simple_impl
          (exampleChapter 3 "他推开门走了进去。他愣住了。")) ∧
    (analyze_project_patterns_incremental id extract_template_simple_impl
        exampleChaptersChanged3 exampleStore 3 false).1.stats? =
      some ⟨processed_count exampleChaptersChanged3 - 1, 1⟩ :=
  ⟨by decide,
   (c8_targeted_invalidation id extract_template_simple_impl exampleChaptersChanged3
      exampleStore 3 (exampleChapter 3 "他推开门走了进去。他愣住了。") (by decide) (by decide)
      (by decide) (by decide) (by decide) (by decide)
      ⟨exampleCacheRow 3 "他走进了房间。他笑了笑。", by decide⟩).1,
   (c8_targeted_invalidation id extract_template_simple_impl exampleChaptersChanged3
      exampleStore 3 (exampleChapter 3 "他推开门走了进去。他愣住了。") (by decide) (by decide)
      (by decide) (by decide) (by decide) (by decide)
      ⟨exampleCacheRow 3 "他走进了房间。他笑了笑。", by decide⟩).2.1⟩

/-- Counterexamples to the literal C8 claim: (i) when the edit empties the
chapter, the loop skips it and its stale row survives untouched with nothing
refreshed; (ii) below the minimum chapter count the run refreshes nothing at
all and returns `insufficient_data`. -/
theorem c8_counterexample :
    cache_valid id exampleStore (exampleChapter 3 "") = false ∧
    (analyze_project_patterns_incremental id extract_template_simple_impl
        exampleChaptersEmpty3 exampleStore 3 false).2 = exampleStore ∧
    (analyze_project_patterns_incremental id extract_template_simple_impl
        exampleChaptersEmpty3 exampleStore 3 false).1.stats? = some ⟨4, 0⟩ ∧
    (analyze_project_patterns_incremental id extract_template_simple_impl
        exampleChapters4 exampleStore 5 false).1 =
      .insufficient_data "需要至少5个章节才能进行套路化分析" 4 ∧
    (analyze_project_patterns_incremental id extract_template_simple_impl
        exampleChapters4 exampleStore 5 false).2 = exampleStore :=
  ⟨by decide, rfl, rfl, rfl, rfl⟩
